import Mathlib

/-!
Verification development for the ContentCreationEngine repository.

The definitions below are shallow embeddings of the Python source:

* `src/content_creation_engine/generators/idea_generator.py`
  (`IdeaGenerator.generate_ideas`, `_parse_ideas_response`,
  `_recover_truncated_json`),
* `src/content_creation_engine/generators/script_writer.py`
  (`ScriptWriter._parse_script_response`, `_validate_script`, `write_script`,
  `write_scripts_batch`),
* `src/content_creation_engine/generators/visual_suggester.py`,
* `src/content_creation_engine/persona/persona_manager.py`
  (`PersonaManager._update_learned_patterns`, `add_reel`, `update_engagement`,
  `get_persona_for_generation`),
* `src/content_creation_engine/scrapers/base_scraper.py`
  (`BaseScraper.scrape_with_cache`, `_get_from_cache`, `_get_cache_key`,
  `_save_to_cache`),
* `src/content_creation_engine/scheduler/daily_workflow.py`
  (`ContentPipeline.run`, `ContentPipeline._run_research`, `ContentOutput`).

Python strings are modelled as Lean `String`/`List Char`; Python `json.loads`
is modelled by a recursive-descent JSON parser over the grammar the repository
actually exercises (objects, arrays, strings with escapes, integer numbers,
booleans, null); Python exceptions are modelled with `Option`/`Except`.
-/

namespace CCE

/-! ### Python string primitives -/

/-- Python whitespace for `str.strip` / `str.split` (space, tab, newline,
carriage return, vertical tab, form feed). -/
def pyIsSpace (c : Char) : Bool :=
  c = ' ' || c = '\t' || c = '\n' || c = '\x0d' || c = '\x0b' || c = '\x0c'

/-- Python `str.strip()` on a character list. -/
def pyStripL (cs : List Char) : List Char :=
  ((cs.dropWhile pyIsSpace).reverse.dropWhile pyIsSpace).reverse

/-- Python `str.strip()`. -/
def pyStrip (s : String) : String :=
  String.mk (pyStripL s.data)

/-- First index `≥ i` at which `sub` occurs in `cs`, if any
(the scanning core of Python `str.find`). -/
def findSubAux (sub : List Char) : List Char → Nat → Option Nat
  | [], i => if sub = [] then some i else none
  | c :: cs, i => if sub.isPrefixOf (c :: cs) then some i else findSubAux sub cs (i + 1)

/-- Python `str.find(sub, start)`: first occurrence index, `-1` when absent. -/
def pyFind (cs : List Char) (sub : List Char) (start : Nat) : Int :=
  match findSubAux sub (cs.drop start) 0 with
  | some j => (start : Int) + j
  | none => -1

/-- Python `sub in s` (substring containment). -/
def pyContains (cs : List Char) (sub : List Char) : Bool :=
  0 ≤ pyFind cs sub 0

/-- Python slice `cs[a:b]` with a nonnegative start and a possibly negative
stop (a negative stop counts from the end, as in `response[start:-1]`). -/
def pySlice (cs : List Char) (a : Nat) (b : Int) : List Char :=
  let b' : Int := if b < 0 then (cs.length : Int) + b else b
  (cs.drop a).take (b'.toNat - a)

/-- Python `str.split()` (split on whitespace runs, dropping empty pieces). -/
def pySplitWs (s : String) : List String :=
  ((s.data.splitOnP pyIsSpace).filter (fun w => ¬ w.isEmpty)).map String.mk

/-- Python `str.lower()` (ASCII case folding suffices for this code base). -/
def pyLower (s : String) : String :=
  String.mk (s.data.map Char.toLower)

/-! ### JSON values

Model of the Python values produced by `json.loads` in this repository.
Numbers are modelled as integers: the generator responses the code parses and
the cache/persona records it stores use integer counts; the parser rejects
fractional literals rather than approximating them. -/

inductive Json : Type where
  | null : Json
  | bool : Bool → Json
  | num : Int → Json
  | str : String → Json
  | arr : List Json → Json
  | obj : List (String × Json) → Json

/-- Python dict assignment `d[k] = v`: update in place when the key exists
(keeping its position, as CPython does), else append. -/
def dictInsert (k : String) (v : Json) : List (String × Json) → List (String × Json)
  | [] => [(k, v)]
  | (k', v') :: rest => if k' = k then (k', v) :: rest else (k', v') :: dictInsert k v rest

/-- Membership test `k in d` on a Python dict. -/
def dictHasKey (k : String) : List (String × Json) → Bool
  | [] => false
  | (k', _) :: rest => k' = k || dictHasKey k rest

/-- Python `d[k]` / `d.get(k)` (first binding; parsed dicts never hold
duplicate keys because `dictInsert` collapses them, as `json.loads` does). -/
def dictGet (k : String) : List (String × Json) → Option Json
  | [] => none
  | (k', v') :: rest => if k' = k then some v' else dictGet k rest

/-! ### The `json.loads` model: a recursive-descent parser -/

/-- JSON whitespace accepted between tokens by `json.loads`. -/
def jsonIsWs (c : Char) : Bool :=
  c = ' ' || c = '\t' || c = '\n' || c = '\x0d'

def skipWs : List Char → List Char
  | [] => []
  | c :: cs => if jsonIsWs c then skipWs cs else c :: cs

def isDigitC (c : Char) : Bool := '0' ≤ c && c ≤ '9'

def hexValC (c : Char) : Option Nat :=
  let n := c.toNat
  if 48 ≤ n ∧ n ≤ 57 then some (n - 48)
  else if 97 ≤ n ∧ n ≤ 102 then some (n - 87)
  else if 65 ≤ n ∧ n ≤ 70 then some (n - 55)
  else none

def unescapeC : Char → Option Char
  | '"' => some '"'
  | '\\' => some '\\'
  | '/' => some '/'
  | 'b' => some '\x08'
  | 'f' => some '\x0c'
  | 'n' => some '\n'
  | 'r' => some '\x0d'
  | 't' => some '\t'
  | _ => none

/-- Body of a JSON string after the opening quote; raw control characters are
rejected, escapes (including `\uXXXX`) are decoded. -/
def parseStrBody (acc : List Char) : List Char → Option (String × List Char)
  | [] => none
  | c :: rest =>
    if c = '"' then some (String.mk acc.reverse, rest)
    else if c = '\\' then
      match rest with
      | 'u' :: a :: b :: c' :: d :: rest' =>
        match hexValC a, hexValC b, hexValC c', hexValC d with
        | some va, some vb, some vc, some vd =>
          parseStrBody (Char.ofNat (((va * 16 + vb) * 16 + vc) * 16 + vd) :: acc) rest'
        | _, _, _, _ => none
      | e :: rest' =>
        match unescapeC e with
        | some ch => parseStrBody (ch :: acc) rest'
        | none => none
      | [] => none
    else if c.toNat < 32 then none
    else parseStrBody (c :: acc) rest

def takeDigitsC : List Char → List Char × List Char
  | [] => ([], [])
  | c :: cs =>
    if isDigitC c then
      let (ds, r) := takeDigitsC cs
      (c :: ds, r)
    else ([], c :: cs)

def digitsToNat (ds : List Char) : Nat :=
  ds.foldl (fun acc c => acc * 10 + (c.toNat - '0'.toNat)) 0

/-- Integer number literal; a following `.`, `e` or `E` (a float literal)
is rejected rather than approximated. -/
def parseIntLit (cs : List Char) : Option (Int × List Char) :=
  let (neg, cs1) :=
    match cs with
    | '-' :: r => (true, r)
    | _ => (false, cs)
  match takeDigitsC cs1 with
  | ([], _) => none
  | (ds, rest) =>
    match rest with
    | '.' :: _ => none
    | 'e' :: _ => none
    | 'E' :: _ => none
    | _ => some ((if neg then -1 else 1) * (digitsToNat ds : Int), rest)

mutual

/-- One JSON value (fuel-indexed for totality; `jsonLoads` supplies enough). -/
def parseValue : Nat → List Char → Option (Json × List Char)
  | 0, _ => none
  | fuel + 1, cs =>
    match skipWs cs with
    | [] => none
    | c :: r =>
      if c = '"' then
        match parseStrBody [] r with
        | some (s, r') => some (.str s, r')
        | none => none
      else if c = '[' then
        match skipWs r with
        | [] => none
        | c' :: r' =>
          if c' = ']' then some (.arr [], r')
          else
            match parseElements fuel (c' :: r') with
            | some (es, r'') => some (.arr es, r'')
            | none => none
      else if c = '{' then
        match skipWs r with
        | [] => none
        | c' :: r' =>
          if c' = '}' then some (.obj [], r')
          else
            match parseMembersAcc fuel [] (c' :: r') with
            | some (ms, r'') => some (.obj ms, r'')
            | none => none
      else if c = 'n' then
        match r with
        | 'u' :: 'l' :: 'l' :: r' => some (.null, r')
        | _ => none
      else if c = 't' then
        match r with
        | 'r' :: 'u' :: 'e' :: r' => some (.bool true, r')
        | _ => none
      else if c = 'f' then
        match r with
        | 'a' :: 'l' :: 's' :: 'e' :: r' => some (.bool false, r')
        | _ => none
      else if c = '-' || isDigitC c then
        match parseIntLit (c :: r) with
        | some (n, r') => some (.num n, r')
        | none => none
      else none

/-- One-or-more comma-separated array elements, up to the closing `]`. -/
def parseElements : Nat → List Char → Option (List Json × List Char)
  | 0, _ => none
  | fuel + 1, cs =>
    match parseValue fuel cs with
    | none => none
    | some (v, r) =>
      match skipWs r with
      | [] => none
      | c :: r' =>
        if c = ',' then
          match parseElements fuel r' with
          | some (vs, r'') => some (v :: vs, r'')
          | none => none
        else if c = ']' then some ([v], r')
        else none

/-- One-or-more comma-separated object members, up to the closing brace.
Members accumulate through `dictInsert`, so duplicate keys collapse exactly
as they do in `json.loads`. -/
def parseMembersAcc : Nat → List (String × Json) → List Char → Option (List (String × Json) × List Char)
  | 0, _, _ => none
  | fuel + 1, acc, cs =>
    match skipWs cs with
    | [] => none
    | c :: r =>
      if c = '"' then
        match parseStrBody [] r with
        | none => none
        | some (key, r1) =>
          match skipWs r1 with
          | [] => none
          | c1 :: r2 =>
            if c1 = ':' then
              match parseValue fuel r2 with
              | none => none
              | some (v, r3) =>
                match skipWs r3 with
                | [] => none
                | c3 :: r4 =>
                  if c3 = ',' then parseMembersAcc fuel (dictInsert key v acc) r4
                  else if c3 = '}' then some (dictInsert key v acc, r4)
                  else none
            else none
      else none

end

/-- Model of Python `json.loads`: one complete value, surrounded only by
whitespace; `none` models a raised `json.JSONDecodeError`. -/
def jsonLoadsL (cs : List Char) : Option Json :=
  match parseValue (cs.length + 1) cs with
  | some (v, rest) => if (skipWs rest).isEmpty then some v else none
  | none => none

/-- Model of Python `json.loads` on a `String`. -/
def jsonLoads (s : String) : Option Json :=
  jsonLoadsL s.data

end CCE

namespace CCE

/-! ### `IdeaGenerator._recover_truncated_json`

The source scans the response character by character with an explicit index,
tracking brace depth, and on each return of the depth to zero slices the
balanced span out of the original string, parses it, and keeps it only when it
is a dict holding a `title` or `id` key. -/

/-- The body of the emit step: `json.loads` the candidate span, keep it when it
is a dict containing `title` or `id`, drop it otherwise (a parse error is
swallowed by the `except ... pass`). -/
def keepIdea (cs : List Char) : List Json :=
  match jsonLoadsL cs with
  | some (Json.obj ms) =>
    if dictHasKey "title" ms || dictHasKey "id" ms then [Json.obj ms] else []
  | _ => []

/-- The `for i, char in enumerate(response)` loop of
`_recover_truncated_json`: `i` is the current index into `full`, `depth` the
brace depth (an `Int`: the source lets it go negative on stray closers),
`start` the pending `start_idx`, `acc` the collected ideas. -/
def recoverAux (full : List Char) : List Char → Nat → Int → Option Nat → List Json → List Json
  | [], _, _, _, acc => acc
  | c :: cs, i, depth, start, acc =>
    if c = '{' then
      recoverAux full cs (i + 1) (depth + 1) (if depth = 0 then some i else start) acc
    else if c = '}' then
      match start with
      | some s =>
        if depth - 1 = 0 then
          recoverAux full cs (i + 1) (depth - 1) none
            (acc ++ keepIdea ((full.drop s).take (i + 1 - s)))
        else recoverAux full cs (i + 1) (depth - 1) (some s) acc
      | none => recoverAux full cs (i + 1) (depth - 1) none acc
    else recoverAux full cs (i + 1) depth start acc

/-- `IdeaGenerator._recover_truncated_json`. -/
def recover_truncated_json (s : String) : List Json :=
  recoverAux s.data s.data 0 0 none []

/-! A buffer-passing reformulation of the same scan, used by the proofs: the
slice `response[start_idx:i]` of the pending object is carried along as an
explicit character buffer. `recoverAux_eq_scanRun` proves the two agree. -/

structure ScanSt where
  depth : Int
  buf : Option (List Char)
  acc : List Json

def scanStep (st : ScanSt) (c : Char) : ScanSt :=
  if c = '{' then
    { depth := st.depth + 1
      buf := if st.depth = 0 then some [c] else st.buf.map (fun b => b ++ [c])
      acc := st.acc }
  else if c = '}' then
    match st.buf with
    | some b =>
      if st.depth - 1 = 0 then
        { depth := st.depth - 1, buf := none, acc := st.acc ++ keepIdea (b ++ [c]) }
      else { depth := st.depth - 1, buf := some (b ++ [c]), acc := st.acc }
    | none => { depth := st.depth - 1, buf := none, acc := st.acc }
  else { st with buf := st.buf.map (fun b => b ++ [c]) }

def scanRun (cs : List Char) (st : ScanSt) : ScanSt := cs.foldl scanStep st

/-! ### `IdeaGenerator._parse_ideas_response` and `generate_ideas` -/

/-- The fence-stripping step of `IdeaGenerator._parse_ideas_response`: strip
the response, then cut out the body of a ```` ```json ```` or ```` ``` ````
markdown fence; an unclosed fence (`find` returning `-1`) keeps the whole
remainder after the opener. -/
def ideaFenceStrip (response : String) : String :=
  let r := (pyStrip response).data
  if pyContains r "```json".data then
    let s0 := (pyFind r "```json".data 0).toNat + 7
    let e := pyFind r "```".data s0
    if e = -1 then pyStrip (String.mk (r.drop s0))
    else pyStrip (String.mk (pySlice r s0 e))
  else if pyContains r "```".data then
    let s0 := (pyFind r "```".data 0).toNat + 3
    let e := pyFind r "```".data s0
    if e = -1 then pyStrip (String.mk (r.drop s0))
    else pyStrip (String.mk (pySlice r s0 e))
  else String.mk r

/-- The final `isinstance` dispatch of `_parse_ideas_response`: a list is
returned as is, a dict with an `"ideas"` key yields that value (whatever it
is), anything else is wrapped in a singleton list. -/
def wrapIdeas (j : Json) : Json :=
  match j with
  | Json.arr l => Json.arr l
  | Json.obj ms =>
    if dictHasKey "ideas" ms then (dictGet "ideas" ms).getD Json.null
    else Json.arr [Json.obj ms]
  | v => Json.arr [v]

/-- `IdeaGenerator._parse_ideas_response`: fence-strip, try `json.loads`, fall
back to truncated-output recovery (whose list result then flows through the
same `isinstance` dispatch). -/
def parse_ideas_response (response : String) : Json :=
  let r := ideaFenceStrip response
  match jsonLoads r with
  | some j => wrapIdeas j
  | none => wrapIdeas (Json.arr (recover_truncated_json r))

/-- Python `l[-n:]`. -/
def lastN (n : Nat) (l : List String) : List String := l.drop (l.length - n)

/-- The `avoid_section += f"- \x7btitle\x7d\n"` loop of `generate_ideas`. -/
def avoidLines : List String → String
  | [] => ""
  | t :: ts => ("- " ++ t ++ "\n") ++ avoidLines ts

/-- The avoid section `generate_ideas` appends to the prompt when there are
previously generated titles: a fixed header followed by one `- title` line for
each of the last 20 entries of `all_previous`. -/
def avoidSection (allPrevious : List String) : String :=
  if allPrevious.isEmpty then ""
  else
    "\n\n## IMPORTANT: Avoid These Previously Created Ideas\n"
      ++ "Do NOT generate ideas similar to these titles (create completely different concepts):\n"
      ++ avoidLines (lastN 20 allPrevious)

/-- `IdeaGenerator.generate_ideas`, after the prompt has been built:
`allPrevious` (the deduplicated union of recent run titles and existing reel
titles) and `ideasCount` feed only the prompt and the token budget, so the
returned value depends on them solely through the model's reply; `resp` is the
`ai_client.generate` result, with `none` covering both a raised error and a
`None` return — either lands in the `except` branch, which returns `[]`. -/
def generate_ideas (allPrevious : List String) (ideasCount : Nat) (resp : Option String) : Json :=
  match allPrevious, ideasCount, resp with
  | _, _, none => Json.arr []
  | _, _, some r => parse_ideas_response r

end CCE

namespace CCE

/-! ### `ScriptWriter` / `VisualSuggester` response parsing -/

/-- The fence-stripping step shared verbatim by
`ScriptWriter._parse_script_response` and
`VisualSuggester._parse_visuals_response`: unlike the Idea Synthesizer's
version, the `find("```", start)` result is used as a slice stop without an
`end == -1` guard, so an unclosed fence slices with stop `-1`
(Python: up to the last character, excluded). -/
def scriptFenceStrip (response : String) : String :=
  let r := (pyStrip response).data
  if pyContains r "```json".data then
    let s0 := (pyFind r "```json".data 0).toNat + 7
    let e := pyFind r "```".data s0
    pyStrip (String.mk (pySlice r s0 e))
  else if pyContains r "```".data then
    let s0 := (pyFind r "```".data 0).toNat + 3
    let e := pyFind r "```".data s0
    pyStrip (String.mk (pySlice r s0 e))
  else String.mk r

/-- `ScriptWriter._get_empty_script()`. -/
def emptyScriptJson : Json :=
  Json.obj
    [("hook", Json.str ""), ("main_content", Json.str ""), ("cta", Json.str ""),
     ("full_script", Json.str ""), ("word_count", Json.num 0),
     ("estimated_duration_seconds", Json.num 0), ("speaker_notes", Json.str ""),
     ("error", Json.str "Failed to generate script")]

/-- `ScriptWriter._parse_script_response`: fence-strip then `json.loads`;
a decode error returns the empty script structure. -/
def parse_script_response (response : String) : Json :=
  match jsonLoads (scriptFenceStrip response) with
  | some j => j
  | none => emptyScriptJson

/-- Python truthiness of a `json.loads` value (`if not script["full_script"]`). -/
def pyTruthy (j : Json) : Bool :=
  match j with
  | Json.null => false
  | Json.bool b => b
  | Json.num n => n ≠ 0
  | Json.str s => ¬ s.isEmpty
  | Json.arr l => ¬ l.isEmpty
  | Json.obj ms => ¬ ms.isEmpty

/-- Python `str()` as used by the f-string that assembles `full_script`.
Scalar renderings are exact; container renderings are structural
placeholders — no claim depends on the assembled text, only on the fact that
the interpolation itself cannot raise. -/
def pyStrOf (j : Json) : String :=
  match j with
  | Json.null => "None"
  | Json.bool true => "True"
  | Json.bool false => "False"
  | Json.num n => toString n
  | Json.str s => s
  | Json.arr _ => "[...]"
  | Json.obj _ => "\x7b...\x7d"

/-- `len(full_script.split())`. -/
def countWords (s : String) : Nat := (pySplitWs s).length

/-- Python `int(wc / 2.5)` (truncation toward zero). -/
def intDivBy2p5 (wc : Int) : Int := Int.tdiv (wc * 2) 5

/-- `d.get(k)` on a parsed value known to be a dict; `none` on a missing key
or a non-dict. -/
def jsonGet (j : Json) (k : String) : Option Json :=
  match j with
  | Json.obj ms => dictGet k ms
  | _ => none

/-- `d[k] = v` on a parsed dict value (identity on non-dicts, which the
modelled call sites never pass). -/
def jsonSetKey (j : Json) (k : String) (v : Json) : Json :=
  match j with
  | Json.obj ms => Json.obj (dictInsert k v ms)
  | j => j

/-- `ScriptWriter._validate_script`, with `Except` modelling the `TypeError`/
`AttributeError` paths that `write_script`'s `except` then swallows: a
non-dict script, splitting a non-string `full_script`, or dividing a
non-numeric `word_count`. -/
def validate_script (j : Json) : Except Unit Json :=
  match j with
  | Json.obj ms0 =>
    let ms1 := ["hook", "main_content", "cta", "full_script"].foldl
      (fun ms f => if dictHasKey f ms then ms else dictInsert f (Json.str "") ms) ms0
    let ms2 :=
      if pyTruthy ((dictGet "full_script" ms1).getD Json.null) then ms1
      else
        dictInsert "full_script"
          (Json.str (pyStrOf ((dictGet "hook" ms1).getD Json.null) ++ "\n\n"
            ++ pyStrOf ((dictGet "main_content" ms1).getD Json.null) ++ "\n\n"
            ++ pyStrOf ((dictGet "cta" ms1).getD Json.null))) ms1
    match
      (if dictHasKey "word_count" ms2 then Except.ok ms2
       else
         match dictGet "full_script" ms2 with
         | some (Json.str s) => Except.ok (dictInsert "word_count" (Json.num (countWords s)) ms2)
         | _ => Except.error ()) with
    | Except.error e => Except.error e
    | Except.ok ms3 =>
      if dictHasKey "estimated_duration_seconds" ms3 then Except.ok (Json.obj ms3)
      else
        match dictGet "word_count" ms3 with
        | some (Json.num n) =>
          Except.ok (Json.obj (dictInsert "estimated_duration_seconds" (Json.num (intDivBy2p5 n)) ms3))
        | _ => Except.error ()
  | _ => Except.error ()

/-- `ScriptWriter.write_script`, from the `ai_client.generate` call on:
`resp = none` models a raised or `None`-returning generation call; any error
out of parse/validate is caught and yields the empty script. -/
def write_script (resp : Option String) : Json :=
  match resp with
  | none => emptyScriptJson
  | some r =>
    match validate_script (parse_script_response r) with
    | Except.ok s => s
    | Except.error _ => emptyScriptJson

/-- `ScriptWriter.write_scripts_batch`: one `write_script` per idea (the
model response for the `idx`-th idea is `resps idx`), then `idea_id` /
`idea_title` are attached. The `idea.get(...)` calls in the prompt-building prologue of
`write_script` sit outside its `try`, so a non-dict idea raises out of the
batch (modelled as `Except.error`). -/
def write_scripts_batch (ideas : List Json) (resps : Nat → Option String) : Except String (List Json) :=
  match ideas with
  | [] => Except.ok []
  | idea :: rest =>
    match idea with
    | Json.obj _ =>
      let script := write_script (resps 0)
      let script := jsonSetKey script "idea_id" ((jsonGet idea "id").getD Json.null)
      let script := jsonSetKey script "idea_title" ((jsonGet idea "title").getD Json.null)
      match write_scripts_batch rest (fun i => resps (i + 1)) with
      | Except.ok ss => Except.ok (script :: ss)
      | Except.error e => Except.error e
    | _ => Except.error "AttributeError"

/-- `VisualSuggester._get_empty_visuals()`. -/
def emptyVisualsJson : Json :=
  Json.obj
    [("b_roll", Json.arr []), ("text_overlays", Json.arr []), ("animations", Json.arr []),
     ("color_scheme", Json.obj
       [("primary", Json.str "#000000"), ("secondary", Json.str "#FFFFFF"),
        ("accent", Json.str "#FF0000"), ("mood", Json.str "Neutral")]),
     ("music_suggestions", Json.obj
       [("genre", Json.str ""), ("tempo", Json.str ""), ("mood", Json.str ""),
        ("specific_suggestions", Json.arr [])]),
     ("shot_list", Json.arr []), ("overall_style_notes", Json.str ""),
     ("error", Json.str "Failed to generate visual suggestions")]

/-- `VisualSuggester._parse_visuals_response` (same fence stripping as the
script writer; decode errors yield the default structure). -/
def parse_visuals_response (response : String) : Json :=
  match jsonLoads (scriptFenceStrip response) with
  | some j => j
  | none => emptyVisualsJson

/-- `VisualSuggester.suggest_visuals` from the generation call on: metadata
keys are attached inside the `try`, so a non-dict parse result (a `TypeError`
on assignment) also lands in the `except`, which returns the default. -/
def suggest_visuals (script idea : Json) (resp : Option String) : Json :=
  match resp with
  | none => emptyVisualsJson
  | some r =>
    match parse_visuals_response r with
    | Json.obj ms =>
      Json.obj (dictInsert "idea_title" ((jsonGet idea "title").getD (Json.str ""))
        (dictInsert "script_duration" ((jsonGet script "estimated_duration_seconds").getD (Json.num 45)) ms))
    | _ => emptyVisualsJson

end CCE

namespace CCE

/-! ### Python `==` on parsed values, for the `ideas_map` dict -/

mutual

/-- Python equality on parsed JSON values (used for `ideas_map` key lookup;
the pipeline only keys that dict with hashable scalars). -/
def jsonBEq : Json → Json → Bool
  | Json.null, Json.null => true
  | Json.bool a, Json.bool b => a = b
  | Json.num a, Json.num b => a = b
  | Json.str a, Json.str b => a = b
  | Json.arr a, Json.arr b => jsonListBEq a b
  | Json.obj a, Json.obj b => jsonMembersBEq a b
  | _, _ => false

def jsonListBEq : List Json → List Json → Bool
  | [], [] => true
  | a :: as', b :: bs' => jsonBEq a b && jsonListBEq as' bs'
  | _, _ => false

def jsonMembersBEq : List (String × Json) → List (String × Json) → Bool
  | [], [] => true
  | (ka, va) :: as', (kb, vb) :: bs' => ka = kb && jsonBEq va vb && jsonMembersBEq as' bs'
  | _, _ => false

end

def isObjB (j : Json) : Bool :=
  match j with
  | Json.obj _ => true
  | _ => false

/-- Hashable scalar (a valid Python dict key for `ideas_map`); a dict or
list key raises `TypeError: unhashable type` when hashed. -/
def scalarB (j : Json) : Bool :=
  match j with
  | Json.arr _ => false
  | Json.obj _ => false
  | _ => true

/-- A nominal parsed idea record: a dict whose `id` (used as the `ideas_map`
key) is absent or a hashable scalar. -/
def ideaRecordOkB (j : Json) : Bool :=
  match j with
  | Json.obj ms =>
    match dictGet "id" ms with
    | none => true
    | some v => scalarB v
  | _ => false

/-- A nominal idea response: it parses to a list of idea records. -/
def IdeaRespOkB (r : String) : Bool :=
  match parse_ideas_response r with
  | Json.arr l => l.all ideaRecordOkB
  | _ => false

/-- Insertion into the `ideas_map` comprehension dict: a duplicate id keeps
its position and takes the later value, as a Python dict does. -/
def jmapInsert (k v : Json) : List (Json × Json) → List (Json × Json)
  | [] => [(k, v)]
  | (k', v') :: rest => if jsonBEq k' k then (k', v) :: rest else (k', v') :: jmapInsert k v rest

def jmapLookup (k : Json) : List (Json × Json) → Option Json
  | [] => none
  | (k', v') :: rest => if jsonBEq k' k then some v' else jmapLookup k rest

/-- The `ideas_map` comprehension of `suggest_visuals_batch`:
`\x7bidea.get("id"): idea for idea in ideas\x7d`, raising `AttributeError` on a
non-dict idea and `TypeError: unhashable type` when the `id` value used as
the dict key is itself a dict or a list. -/
def buildIdeasMap : List Json → List (Json × Json) → Except String (List (Json × Json))
  | [], acc => Except.ok acc
  | idea :: rest, acc =>
    match idea with
    | Json.obj _ =>
      if scalarB ((jsonGet idea "id").getD Json.null) then
        buildIdeasMap rest (jmapInsert ((jsonGet idea "id").getD Json.null) idea acc)
      else Except.error "TypeError: unhashable type"
    | _ => Except.error "AttributeError"

/-- The per-script loop of `suggest_visuals_batch`: `ideas_map.get(idea_id, ...)`
also hashes its key, so a dict- or list-valued `idea_id` raises `TypeError`
out of the loop. -/
def visualsLoop (m : List (Json × Json)) : List Json → (Nat → Option String) → Except String (List Json)
  | [], _ => Except.ok []
  | script :: rest, rs =>
    let ideaId := (jsonGet script "idea_id").getD Json.null
    if scalarB ideaId then
      let idea := (jmapLookup ideaId m).getD
        (Json.obj [("title", (jsonGet script "idea_title").getD Json.null)])
      let v := jsonSetKey (suggest_visuals script idea (rs 0)) "idea_id" ideaId
      match visualsLoop m rest (fun i => rs (i + 1)) with
      | Except.ok vs => Except.ok (v :: vs)
      | Except.error e => Except.error e
    else Except.error "TypeError: unhashable type"

/-- `VisualSuggester.suggest_visuals_batch`. -/
def suggest_visuals_batch (scripts ideas : List Json) (resps : Nat → Option String) : Except String (List Json) :=
  match buildIdeasMap ideas [] with
  | Except.error e => Except.error e
  | Except.ok m => visualsLoop m scripts resps

end CCE

namespace CCE

/-! ### `PersonaManager`: persona records and the learning recomputation

Persona records are modelled as typed structures following the persona file
schema (`create_persona` and spec section 6); dictionary `get` calls with
defaults become `Option.getD`. An absent `engagement` dict is represented as
an `Engagement` whose fields are all `none`, which is observationally equal:
both are only read through `get` with defaults. -/

structure Engagement where
  views : Option Int
  likes : Option Int
  comments : Option Int
  shares : Option Int
  saves : Option Int
deriving DecidableEq, Repr

structure Reel where
  id : String
  title : String
  script : String
  engagement : Engagement
  date : String
deriving DecidableEq, Repr

structure HookRec where
  hook : String
  title : String
  engagement_score : ℚ
deriving DecidableEq, Repr

structure EngagementInsights where
  best_posting_time : Option String
  avg_engagement_rate : Option ℚ
  top_performing_format : Option String
deriving DecidableEq, Repr

structure LearnedPatterns where
  auto_generated : Bool
  last_updated : Option String
  best_performing_hooks : List HookRec
  avg_script_length : Int
  common_topics : List String
  engagement_insights : EngagementInsights
deriving DecidableEq, Repr

structure BasicInfo where
  name : String
  niche : String
  target_audience : String
  tone : String
  hashtags : List String
deriving DecidableEq, Repr

structure Persona where
  persona_id : String
  basic_info : BasicInfo
  existing_reels : List Reel
  learned_patterns : LearnedPatterns
deriving DecidableEq, Repr

/-- The local `engagement_score` closure of `_update_learned_patterns`:
`views = eng.get("views", 1)`, then a weighted sum divided by `views`.
`none` models the `ZeroDivisionError` raised when the `views` field is
present and zero. -/
def engagement_score (e : Engagement) : Option ℚ :=
  let v := e.views.getD 1
  if v = 0 then none
  else
    some (((e.likes.getD 0 + e.comments.getD 0 * 2 + e.shares.getD 0 * 3
      + e.saves.getD 0 * 3 : Int) : ℚ) / (v : ℚ))

/-- The `reels_with_engagement` filter: `eng.get("views", 0) > 0`. -/
def reels_with_engagement (reels : List Reel) : List Reel :=
  reels.filter (fun r => 0 < r.engagement.views.getD 0)

/-- Stable insertion sort. Python's `sorted` is stable, and the stable sort of
a list under a total preorder is unique, so any stable sorting algorithm
models `sorted(..., key=..., reverse=True)` exactly; `le x y` means "x may
stay in front of y". -/
def insertStable (le : α → α → Bool) (x : α) : List α → List α
  | [] => [x]
  | y :: ys => if le x y then x :: y :: ys else y :: insertStable le x ys

/-- Stable sort by `le` (see `insertStable`). -/
def sortStable (le : α → α → Bool) (l : List α) : List α :=
  l.foldr (insertStable le) []

/-- Hook extraction: `script.split(".")[0] + "." if "." in script else
script[:100]`. -/
def firstSentence (script : String) : String :=
  if pyContains script.data ".".data then
    String.mk (script.data.takeWhile (fun c => c ≠ '.')) ++ "."
  else String.mk (script.data.take 100)

/-- Words of length above 3 from the lowercased reel titles, in order. -/
def titleWords (reels : List Reel) : List String :=
  reels.flatMap (fun r => (pySplitWs (pyLower r.title)).filter (fun w => 3 < w.length))

/-- One `Counter` update: first occurrence keeps its position, repeats bump
the count (CPython dict/Counter insertion order). -/
def bumpCount (w : String) : List (String × Nat) → List (String × Nat)
  | [] => [(w, 1)]
  | (x, n) :: rest => if x = w then (x, n + 1) :: rest else (x, n) :: bumpCount w rest

/-- `collections.Counter(all_words)` as an insertion-ordered count list. -/
def counterOf (l : List String) : List (String × Nat) :=
  l.foldl (fun acc w => bumpCount w acc) []

/-- `Counter(...).most_common(10)` keys: stable sort by count descending
(ties in first-encounter order), first ten words. -/
def common_topics_of (reels : List Reel) : List String :=
  ((sortStable (fun a b => decide (b.2 ≤ a.2)) (counterOf (titleWords reels))).take 10).map Prod.fst

/-- `int(sum(script_lengths) / len(script_lengths)) if script_lengths else 0`
(word counts are nonnegative, so float truncation is `Nat` division). -/
def avg_script_length_of (reels : List Reel) : Int :=
  let lens := reels.map (fun r => (pySplitWs r.script).length)
  if lens.isEmpty then 0 else ((lens.sum / lens.length : Nat) : Int)

/-- `round(x, 4)`. Python rounds ties to even on binary floats; the claims
under verification never depend on the tie rule, so ordinary rounding of the
exact rational is used. -/
def pyRound4 (q : ℚ) : ℚ := (round (q * 10000) : ℤ) / 10000

/-- `PersonaManager._update_learned_patterns`, with `now` standing for
`datetime.now().isoformat()`. Structure of the source: an early return leaves
the persona untouched when it has no reels; `learned = persona.get(
"learned_patterns", ...)` is the prior record, mutated field by field, so
everything not assigned (and, when no reel has positive views, the hooks and
the average engagement rate) carries over from before. `none` models an
uncaught error from an `engagement_score` evaluation. -/
def update_learned_patterns (now : String) (p : Persona) : Option Persona :=
  let reels := p.existing_reels
  if reels.isEmpty then some p
  else
    let lp := p.learned_patterns
    let lp1 : LearnedPatterns :=
      { lp with
        auto_generated := true
        last_updated := some now
        avg_script_length := avg_script_length_of reels }
    let withEng := reels_with_engagement reels
    let step2 : Option LearnedPatterns :=
      if withEng.isEmpty then some lp1
      else
        (withEng.mapM (fun r => (engagement_score r.engagement).map (fun q => (r, q)))).map
          (fun scored =>
            let sorted := sortStable (fun a b => decide (b.2 ≤ a.2)) scored
            let hooks := (sorted.take 5).map (fun rq =>
              { hook := firstSentence rq.1.script
                title := rq.1.title
                engagement_score := rq.2 : HookRec })
            let total := (scored.map Prod.snd).sum
            { lp1 with
              best_performing_hooks := hooks
              engagement_insights :=
                { lp1.engagement_insights with
                  avg_engagement_rate := some (pyRound4 (total / (withEng.length : ℚ))) } })
    match step2 with
    | none => none
    | some lp2 =>
      some { p with learned_patterns := { lp2 with common_topics := common_topics_of reels } }

/-- `f"reel_\x7blen(existing_reels) + 1:03d\x7d"`. -/
def pad3 (n : Nat) : String :=
  let s := toString n
  String.mk (List.replicate (3 - s.length) '0') ++ s

/-- `PersonaManager.add_reel` in memory (file load/save is identity on the
record): append a reel with a sequential id and defaulted engagement, then
trigger the learning recomputation. -/
def add_reel (p : Persona) (title script : String) (engagement : Option Engagement)
    (date : Option String) (today now : String) : Option Persona :=
  let reels := p.existing_reels
  let reel : Reel :=
    { id := "reel_" ++ pad3 (reels.length + 1)
      title := title
      script := script
      engagement := engagement.getD ⟨some 0, some 0, some 0, some 0, some 0⟩
      date := date.getD today }
  update_learned_patterns now { p with existing_reels := reels ++ [reel] }

/-- The `for ... if reel.get("id") == reel_id: ...; break` loop of
`update_engagement`: only the first match is replaced. -/
def setEngagementFirst (reelId : String) (e : Engagement) : List Reel → List Reel
  | [] => []
  | r :: rest =>
    if r.id = reelId then { r with engagement := e } :: rest
    else r :: setEngagementFirst reelId e rest

/-- `PersonaManager.update_engagement` in memory: replace the engagement of
the first reel with the given id, then recompute learned patterns. -/
def update_engagement (p : Persona) (reelId : String) (e : Engagement) (now : String) : Option Persona :=
  update_learned_patterns now { p with existing_reels := setEngagementFirst reelId e p.existing_reels }

/-- `PersonaManager.get_persona_for_generation`: loads the persona and
recomputes learned patterns. The `_style_summary` / `_sample_scripts`
decorations it also attaches are presentation strings that neither touch
`learned_patterns` nor raise, and are not modelled. -/
def get_persona_for_generation (now : String) (p : Persona) : Option Persona :=
  update_learned_patterns now p

end CCE

namespace CCE

/-! ### `BaseScraper`: the read-through research cache

The cache directory is modelled as a keyed store from file name to entry;
`today` stands for `datetime.now().strftime("%Y-%m-%d")` and `ts` for the
stored ISO timestamp. The `Bool` in the result of `scrape_with_cache` records
whether the underlying `scrape` was invoked. -/

structure CacheEntry where
  date : String
  timestamp : String
  source : String
  results : List Json

def cacheLookup : List (String × CacheEntry) → String → Option CacheEntry
  | [], _ => none
  | (k, e) :: rest, key => if k = key then some e else cacheLookup rest key

def cacheStore : List (String × CacheEntry) → String → CacheEntry → List (String × CacheEntry)
  | [], key, e => [(key, e)]
  | (k, e') :: rest, key, e =>
    if k = key then (k, e) :: rest else (k, e') :: cacheStore rest key e

/-- `BaseScraper._get_cache_key`: source name, the query with non-alphanumeric
characters replaced by underscores, and the current cycle date. -/
def get_cache_key (source query today : String) : String :=
  source ++ "_" ++ String.mk (query.data.map (fun c => if c.isAlphanum then c else '_')) ++ "_" ++ today

/-- `BaseScraper._get_from_cache`: read the keyed file and return its results
only when its stored date equals the current cycle date. -/
def get_from_cache (cache : List (String × CacheEntry)) (key today : String) : Option (List Json) :=
  match cacheLookup cache key with
  | none => none
  | some e => if e.date = today then some e.results else none

/-- `BaseScraper._save_to_cache`. -/
def save_to_cache (cache : List (String × CacheEntry)) (key today ts source : String)
    (results : List Json) : List (String × CacheEntry) :=
  cacheStore cache key ⟨today, ts, source, results⟩

/-- `BaseScraper.scrape_with_cache`: serve the cache on a hit; otherwise run
the scrape — whose failure propagates — and store the fresh results. The
`Bool` is `true` precisely when the underlying `scrape` was invoked. -/
def scrape_with_cache (today ts source query : String) (scrape : Except String (List Json))
    (cache : List (String × CacheEntry)) :
    Except String (List Json × List (String × CacheEntry) × Bool) :=
  let key := get_cache_key source query today
  match get_from_cache cache key today with
  | some res => Except.ok (res, cache, false)
  | none =>
    match scrape with
    | Except.error e => Except.error e
    | Except.ok results => Except.ok (results, save_to_cache cache key today ts source results, true)

/-! ### `ContentPipeline`: the orchestrator -/

/-- The per-run research dictionary built by `_run_research` (five source
keys, plus three keys only present when their fetch succeeded with data). -/
structure ResearchData where
  reddit : List Json
  news : List Json
  instagram : List Json
  youtube : List Json
  serper : List Json
  youtube_trending_topics : Option (List String)
  serper_questions : Option (List String)
  serper_related : Option (List String)

/-- `research_data = \x7b"reddit": [], "news": [], "instagram": []\x7d` (the
`skip_scraping` branch; absent keys and empty lists are observationally equal
downstream, everything reads them through `get(key, [])`). -/
def emptyResearch : ResearchData :=
  ⟨[], [], [], [], [], none, none, none⟩

/-- The external calls one `_run_research` invocation may make, each
`Except.error` modelling a raised exception. `configured` flags mirror the
`settings.*` credential checks that gate each source. -/
structure ResearchEnv where
  redditConfigured : Bool
  redditResults : List (Except String (List Json))
  newsConfigured : Bool
  newsResult : Except String (List Json)
  instagramConfigured : Bool
  instagramResult : Except String (List Json)
  youtubeConfigured : Bool
  youtubeResult : Except String (List Json)
  youtubeTrending : Except String (List String)
  serperConfigured : Bool
  serperResult : Except String (List Json)
  serperQuestions : Except String (List String)
  serperRelated : Except String (List String)

/-- The Reddit loop: posts accumulate per subreddit until a raise aborts the
`try` block, keeping what was already extended. -/
def redditLoop : List (Except String (List Json)) → List Json
  | [] => []
  | Except.ok posts :: rest => posts ++ redditLoop rest
  | Except.error _ :: _ => []

/-- `ContentPipeline._run_research`, with the cycle-date cache file read
handled by the caller (`run` passes `cached`): every per-source block is
wrapped in `try/except`, so a failing source contributes what was assigned
before the raise and never aborts the research phase. The final cache write
uses the working persistence the claims assume for everything but the
artifact save. -/
def run_research (env : ResearchEnv) : ResearchData :=
  { reddit := if env.redditConfigured then redditLoop (env.redditResults.take 3) else []
    news :=
      if env.newsConfigured then
        match env.newsResult with
        | Except.ok articles => articles
        | Except.error _ => []
      else []
    instagram :=
      if env.instagramConfigured then
        match env.instagramResult with
        | Except.ok posts => posts
        | Except.error _ => []
      else []
    youtube :=
      if env.youtubeConfigured then
        match env.youtubeResult with
        | Except.ok videos => videos
        | Except.error _ => []
      else []
    serper :=
      if env.serperConfigured then
        match env.serperResult with
        | Except.ok rs => rs
        | Except.error _ => []
      else []
    youtube_trending_topics :=
      if env.youtubeConfigured then
        match env.youtubeResult, env.youtubeTrending with
        | Except.ok _, Except.ok trending => if trending.isEmpty then none else some trending
        | _, _ => none
      else none
    serper_questions :=
      if env.serperConfigured then
        match env.serperResult, env.serperQuestions with
        | Except.ok _, Except.ok qs => if qs.isEmpty then none else some qs
        | _, _ => none
      else none
    serper_related :=
      if env.serperConfigured then
        match env.serperResult, env.serperQuestions, env.serperRelated with
        | Except.ok _, Except.ok _, Except.ok ts => if ts.isEmpty then none else some ts
        | _, _, _ => none
      else none }

/-- `ContentOutput` (the run artifact): `ideas` carries whatever
`generate_ideas` returned, `scripts`/`visuals` the batched results. -/
structure ContentOutput where
  date : String
  persona_id : String
  niche : String
  research_data : ResearchData
  ideas : Json
  scripts : List Json
  visuals : List Json
  ideas_requested : Nat
  output_file : Option String

/-- Iterating the parsed ideas value in `write_scripts_batch`
(`for idea in ideas`): lists iterate elementwise, strings iterate
per character, dicts iterate over their keys, and scalars raise
`TypeError`. -/
def pyIterList (j : Json) : Except String (List Json) :=
  match j with
  | Json.arr l => Except.ok l
  | Json.str s => Except.ok (s.data.map (fun c => Json.str (String.mk [c])))
  | Json.obj ms => Except.ok (ms.map (fun kv => Json.str kv.1))
  | _ => Except.error "TypeError"

/-- `ContentPipeline.run`. Inputs cover one run: the loaded persona, the flag
arguments, the cycle-date research cache (`cached` is its content when the
file exists), the adapter environment, the three generation oracles (one
response per call, `none` for a failed call), the artifact save outcome and
the clock strings. Each stage is total except where the source itself can
raise: persona learning recomputation, idea iteration with non-dict items,
and the final `output.save()` whose failure alone propagates. -/
def pipeline_run (persona : Persona) (prevTitles : List String) (ideasCount : Nat)
    (skipScraping useCachedResearch : Bool) (cached : Option ResearchData)
    (env : ResearchEnv) (ideaResp : Option String)
    (scriptResps visualResps : Nat → Option String)
    (saveResult : Except String String) (dateStr now : String) :
    Except String ContentOutput :=
  match get_persona_for_generation now persona with
  | none => Except.error "ZeroDivisionError"
  | some p =>
    let research :=
      if skipScraping then emptyResearch
      else
        match useCachedResearch, cached with
        | true, some data => data
        | _, _ => run_research env
    let ideas := generate_ideas prevTitles ideasCount ideaResp
    match pyIterList ideas with
    | Except.error e => Except.error e
    | Except.ok ideasList =>
      match write_scripts_batch ideasList scriptResps with
      | Except.error e => Except.error e
      | Except.ok scripts =>
        match suggest_visuals_batch scripts ideasList visualResps with
        | Except.error e => Except.error e
        | Except.ok visuals =>
          match saveResult with
          | Except.error e => Except.error e
          | Except.ok path =>
            Except.ok
              { date := dateStr
                persona_id := p.persona_id
                niche := p.basic_info.niche
                research_data := research
                ideas := ideas
                scripts := scripts
                visuals := visuals
                ideas_requested := ideasCount
                output_file := some path }

end CCE

namespace CCE

/-! ### Cache lemmas and claims C8, C9 -/

theorem cacheLookup_store_self (cache : List (String × CacheEntry)) (key : String) (e : CacheEntry) :
    cacheLookup (cacheStore cache key e) key = some e := by
  induction cache with
  | nil => simp [cacheStore, cacheLookup]
  | cons kv rest ih =>
    obtain ⟨k, e'⟩ := kv
    by_cases hk : k = key
    · simp [cacheStore, cacheLookup, hk]
    · simp [cacheStore, cacheLookup, hk, ih]

theorem cacheLookup_store_other (cache : List (String × CacheEntry)) (key key' : String)
    (e : CacheEntry) (h : key' ≠ key) :
    cacheLookup (cacheStore cache key e) key' = cacheLookup cache key' := by
  have hne : key = key' → False := fun hh => h (Eq.symm hh)
  induction cache with
  | nil =>
    simp only [cacheStore, cacheLookup]
    rw [if_neg hne]
  | cons kv rest ih =>
    obtain ⟨k, e'⟩ := kv
    by_cases hk : k = key
    · subst hk
      simp only [cacheStore, if_pos rfl, cacheLookup]
      rw [if_neg hne, if_neg hne]
    · simp [cacheStore, cacheLookup, hk, ih]

/-- The cycle date is a suffix of the cache key under a fixed source and
query, so distinct dates yield distinct keys. -/
theorem get_cache_key_date_inj (source query D D' : String)
    (h : get_cache_key source query D = get_cache_key source query D') : D = D' := by
  have hd : (get_cache_key source query D).data = (get_cache_key source query D').data := by
    rw [h]
  simp only [get_cache_key, String.data_append, List.append_assoc,
    List.append_right_inj] at hd
  cases D; cases D'
  exact congrArg String.mk hd

/-- C8, first part: a cache entry captured by a miss-then-scrape on cycle
date `D` is stored under the date-keyed file with the date inside. -/
theorem scrape_with_cache_capture (D ts source query : String)
    (results : List Json) (cache0 : List (String × CacheEntry))
    (hmiss : get_from_cache cache0 (get_cache_key source query D) D = none) :
    scrape_with_cache D ts source query (Except.ok results) cache0
      = Except.ok (results,
          save_to_cache cache0 (get_cache_key source query D) D ts source results, true) := by
  simp [scrape_with_cache, hmiss]

/--
C8. For every source and topic, a cache entry captured on cycle date `D` (by
a miss followed by a successful scrape) is returned verbatim by
`scrape_with_cache` when queried again on date `D` — the underlying scrape is
not invoked (the `Bool` component is `false`) and the cache is unchanged —
while a query on any date `D' ≠ D` misses that entry and triggers a fresh
scrape (the `Bool` component is `true`), provided no other entry for `D'` is
already in the cache.
-/
theorem claim_C8_cache_validity (D D' ts ts' ts2 source query : String)
    (results results' : List Json) (scrape2 : Except String (List Json))
    (cache0 : List (String × CacheEntry))
    (hmiss : get_from_cache cache0 (get_cache_key source query D) D = none)
    (hmiss' : get_from_cache cache0 (get_cache_key source query D') D' = none)
    (hne : D' ≠ D) :
    scrape_with_cache D ts' source query scrape2
        (save_to_cache cache0 (get_cache_key source query D) D ts source results)
      = Except.ok (results,
          save_to_cache cache0 (get_cache_key source query D) D ts source results, false)
    ∧ scrape_with_cache D' ts2 source query (Except.ok results')
        (save_to_cache cache0 (get_cache_key source query D) D ts source results)
      = Except.ok (results',
          save_to_cache
            (save_to_cache cache0 (get_cache_key source query D) D ts source results)
            (get_cache_key source query D') D' ts2 source results', true) := by
  have hkey : get_cache_key source query D' ≠ get_cache_key source query D := by
    intro h
    exact hne (get_cache_key_date_inj source query D' D h)
  constructor
  · have hhit : get_from_cache
        (save_to_cache cache0 (get_cache_key source query D) D ts source results)
        (get_cache_key source query D) D = some results := by
      simp [get_from_cache, save_to_cache, cacheLookup_store_self]
    simp [scrape_with_cache, hhit]
  · have hmiss2 : get_from_cache
        (save_to_cache cache0 (get_cache_key source query D) D ts source results)
        (get_cache_key source query D') D' = none := by
      simp only [get_from_cache, save_to_cache]
      rw [cacheLookup_store_other _ _ _ _ hkey]
      simpa [get_from_cache, save_to_cache] using hmiss'
    simp [scrape_with_cache, hmiss2]

/-- Witness for C8 at a concrete cache state and pair of dates. -/
theorem claim_C8_witness :
    (get_from_cache [] (get_cache_key "news" "ai" "2026-10-12") "2026-10-12" = none
      ∧ get_from_cache [] (get_cache_key "news" "ai" "2026-10-13") "2026-10-13" = none
      ∧ "2026-10-13" ≠ "2026-10-12")
    ∧ (scrape_with_cache "2026-10-12" "T1" "news" "ai" (Except.error "down")
          (save_to_cache [] (get_cache_key "news" "ai" "2026-10-12") "2026-10-12" "T0" "news"
            [Json.str "item"])
        = Except.ok ([Json.str "item"],
            save_to_cache [] (get_cache_key "news" "ai" "2026-10-12") "2026-10-12" "T0" "news"
              [Json.str "item"], false)
      ∧ scrape_with_cache "2026-10-13" "T2" "news" "ai" (Except.ok [Json.str "fresh"])
          (save_to_cache [] (get_cache_key "news" "ai" "2026-10-12") "2026-10-12" "T0" "news"
            [Json.str "item"])
        = Except.ok ([Json.str "fresh"],
            save_to_cache
              (save_to_cache [] (get_cache_key "news" "ai" "2026-10-12") "2026-10-12" "T0" "news"
                [Json.str "item"])
              (get_cache_key "news" "ai" "2026-10-13") "2026-10-13" "T2" "news"
              [Json.str "fresh"], true)) :=
  ⟨⟨rfl, rfl, by decide⟩,
    claim_C8_cache_validity "2026-10-12" "2026-10-13" "T0" "T1" "T2" "news" "ai"
      [Json.str "item"] [Json.str "fresh"] (Except.error "down") [] rfl rfl (by decide)⟩

/--
C9, counterexample. The claim says a cache miss followed by a fetch failure
is served from the most recent prior snapshot aged at most 7 cycles. In the
code there is no stale-snapshot path at all: with yesterday's snapshot (age 1
cycle) in the cache and a failing fetch, `scrape_with_cache` propagates the
failure instead of serving the snapshot.
-/
theorem claim_C9_counterexample :
    (cacheLookup [(get_cache_key "news" "ai" "2026-10-11",
        ⟨"2026-10-11", "T0", "news", [Json.str "snapshot"]⟩)]
      (get_cache_key "news" "ai" "2026-10-11")).isSome = true
    ∧ scrape_with_cache "2026-10-12" "T1" "news" "ai" (Except.error "network")
        [(get_cache_key "news" "ai" "2026-10-11",
          ⟨"2026-10-11", "T0", "news", [Json.str "snapshot"]⟩)]
      = Except.error "network" :=
  ⟨rfl, rfl⟩

/--
C9, amended: when the cache lookup misses for the current cycle date and the
adapter's fetch then fails, `scrape_with_cache` propagates the failure to the
caller; no prior snapshot of the (source, topic) pair is consulted.
-/
theorem claim_C9_failure_propagates (today ts source query e : String)
    (cache : List (String × CacheEntry))
    (hmiss : get_from_cache cache (get_cache_key source query today) today = none) :
    scrape_with_cache today ts source query (Except.error e) cache = Except.error e := by
  simp [scrape_with_cache, hmiss]

/-- Witness for the amended C9 at the concrete stale-cache state. -/
theorem claim_C9_witness :
    (get_from_cache [(get_cache_key "news" "ai" "2026-10-11",
        ⟨"2026-10-11", "T0", "news", [Json.str "snapshot"]⟩)]
      (get_cache_key "news" "ai" "2026-10-12") "2026-10-12" = none)
    ∧ scrape_with_cache "2026-10-12" "T1" "news" "ai" (Except.error "network")
        [(get_cache_key "news" "ai" "2026-10-11",
          ⟨"2026-10-11", "T0", "news", [Json.str "snapshot"]⟩)]
      = Except.error "network" :=
  ⟨rfl, claim_C9_failure_propagates "2026-10-12" "T1" "news" "ai" "network" _ rfl⟩

end CCE

namespace CCE

/-! ### Claim C10: fence stripping in the Composer vs the Synthesizer -/

/-- The stripped response opens no fence, or its opened fence has a closing
```` ``` ```` (so `find("```", start)` does not return `-1`). -/
def fenceClosed (s : String) : Bool :=
  let r := (pyStrip s).data
  if pyContains r "```json".data then
    pyFind r "```".data ((pyFind r "```json".data 0).toNat + 7) ≠ -1
  else if pyContains r "```".data then
    pyFind r "```".data ((pyFind r "```".data 0).toNat + 3) ≠ -1
  else true

/--
C10, counterexample. On a response that opens a ```` ```json ```` fence and is
never closed, the Idea Synthesizer's strip keeps the whole remainder while the
Script Composer's strip slices with stop `-1` and so drops the final
character: the two stripped texts differ (here by the closing brace of the
JSON object).
-/
theorem claim_C10_counterexample :
    ideaFenceStrip "```json\n\x7b\"a\": 1\x7d" = "\x7b\"a\": 1\x7d"
    ∧ scriptFenceStrip "```json\n\x7b\"a\": 1\x7d" = "\x7b\"a\": 1"
    ∧ ideaFenceStrip "```json\n\x7b\"a\": 1\x7d" ≠ scriptFenceStrip "```json\n\x7b\"a\": 1\x7d" :=
  ⟨rfl, rfl, by decide⟩

/--
C10, amended: the Script Composer's parse step strips markdown code fences
identically to the Idea Synthesizer's on every response whose opened fence is
closed (and on every response without a fence); the two differ exactly on an
unclosed fence, where the Composer's unguarded `find` result `-1` slices away
the final character of the remainder.
-/
theorem claim_C10_fence_strip_agree (s : String) (h : fenceClosed s = true) :
    ideaFenceStrip s = scriptFenceStrip s := by
  unfold fenceClosed at h
  unfold ideaFenceStrip scriptFenceStrip
  by_cases h1 : pyContains (pyStrip s).data "```json".data
  · simp only [h1, if_true] at h ⊢
    have he : pyFind (pyStrip s).data "```".data
        ((pyFind (pyStrip s).data "```json".data 0).toNat + 7) ≠ -1 := by
      simpa using h
    simp only [if_neg he]
  · simp only [h1, if_false, Bool.false_eq_true] at h ⊢
    by_cases h2 : pyContains (pyStrip s).data "```".data
    · simp only [h2, if_true] at h ⊢
      have he : pyFind (pyStrip s).data "```".data
          ((pyFind (pyStrip s).data "```".data 0).toNat + 3) ≠ -1 := by
        simpa using h
      simp only [if_neg he]
    · simp [h2]

/-- Witness for the amended C10 on a closed-fence response. -/
theorem claim_C10_witness :
    fenceClosed "```json\n\x7b\"a\": 1\x7d\n```" = true
    ∧ ideaFenceStrip "```json\n\x7b\"a\": 1\x7d\n```"
        = scriptFenceStrip "```json\n\x7b\"a\": 1\x7d\n```" :=
  ⟨by decide, claim_C10_fence_strip_agree "```json\n\x7b\"a\": 1\x7d\n```" (by decide)⟩

end CCE

namespace CCE

/-! ### Claims C2 and C7: what `generate_ideas` does and does not enforce -/

theorem avoidLines_has_title (t : String) (ts : List String) (h : t ∈ ts) :
    t.data <:+: (avoidLines ts).data := by
  induction ts with
  | nil => cases h
  | cons t' ts ih =>
    have heq : (avoidLines (t' :: ts)).data
        = "- ".data ++ t'.data ++ "\n".data ++ (avoidLines ts).data := by
      simp [avoidLines, String.data_append]
    rcases List.mem_cons.mp h with h' | h'
    · subst h'
      rw [heq]
      exact ⟨"- ".data, "\n".data ++ (avoidLines ts).data, by simp⟩
    · rw [heq]
      refine (ih h').trans ?_
      rw [List.append_assoc, List.append_assoc]
      exact ((List.suffix_append _ _).trans
        ((List.suffix_append _ _).trans (List.suffix_append _ _))).isInfix

/--
C2, counterexample. `generate_ideas` performs no filtering of the parsed
model response against the suppressed-title set: with the single suppressed
title "How to Ace the SAT", a model response containing exactly that title is
returned as an Idea whose title is an exact case-sensitive match of a
suppressed title.
-/
theorem claim_C2_counterexample :
    generate_ideas ["How to Ace the SAT"] 3
        (some "[\x7b\"title\": \"How to Ace the SAT\"\x7d]")
      = Json.arr [Json.obj [("title", Json.str "How to Ace the SAT")]]
    ∧ "How to Ace the SAT" ∈ ["How to Ace the SAT"] :=
  ⟨rfl, List.mem_singleton.mpr rfl⟩

/--
C2, amended: the suppressed-title set reaches idea generation only through
the prompt — the last 20 suppressed titles are each embedded verbatim in the
prompt's avoid section — and the returned Ideas are exactly the parsed model
response, with no post-parse filtering against the suppressed set (so a title
equal to a suppressed title is returned whenever the model emits one).
-/
theorem claim_C2_dedup_via_prompt_only :
    (∀ (prev : List String) (t : String), t ∈ lastN 20 prev →
      t.data <:+: (avoidSection prev).data)
    ∧ (∀ (prev : List String) (count : Nat) (r : String) (l : List Json),
        jsonLoads (ideaFenceStrip r) = some (Json.arr l) →
        generate_ideas prev count (some r) = Json.arr l) := by
  constructor
  · intro prev t ht
    have hne : ¬ prev.isEmpty := by
      intro he
      rw [List.isEmpty_iff.mp he] at ht
      simp [lastN] at ht
    unfold avoidSection
    rw [if_neg hne]
    simp only [String.data_append, List.append_assoc]
    exact (avoidLines_has_title t _ ht).trans
      ((List.suffix_append _ _).trans (List.suffix_append _ _)).isInfix
  · intro prev count r l h
    cases prev with
    | nil => simp [generate_ideas, parse_ideas_response, h, wrapIdeas]
    | cons a as => simp [generate_ideas, parse_ideas_response, h, wrapIdeas]

/-- Witness for the amended C2: the suppressed title sits in the avoid
section, and a two-record response is returned in full. -/
theorem claim_C2_witness :
    ("SAT Tips" ∈ lastN 20 ["SAT Tips"]
      ∧ "SAT Tips".data <:+: (avoidSection ["SAT Tips"]).data)
    ∧ (jsonLoads (ideaFenceStrip "[\x7b\"title\": \"A\"\x7d, \x7b\"title\": \"B\"\x7d]")
        = some (Json.arr [Json.obj [("title", Json.str "A")],
            Json.obj [("title", Json.str "B")]])
      ∧ generate_ideas ["SAT Tips"] 2 (some "[\x7b\"title\": \"A\"\x7d, \x7b\"title\": \"B\"\x7d]")
        = Json.arr [Json.obj [("title", Json.str "A")], Json.obj [("title", Json.str "B")]]) :=
  ⟨⟨by decide, claim_C2_dedup_via_prompt_only.1 ["SAT Tips"] "SAT Tips" (by decide)⟩,
    ⟨rfl, claim_C2_dedup_via_prompt_only.2 ["SAT Tips"] 2
      "[\x7b\"title\": \"A\"\x7d, \x7b\"title\": \"B\"\x7d]" _ rfl⟩⟩

/--
C7, counterexample. `_parse_ideas_response` applies no record validation and
no count bound on the direct-parse path: asked for 1 idea, a valid two-record
response with empty (hence equal, hence non-unique) titles is returned whole —
two records, both with an empty title.
-/
theorem claim_C7_counterexample :
    generate_ideas [] 1 (some "[\x7b\"title\": \"\"\x7d, \x7b\"title\": \"\"\x7d]")
      = Json.arr [Json.obj [("title", Json.str "")], Json.obj [("title", Json.str "")]]
    ∧ ¬ (2 ≤ 1) :=
  ⟨rfl, by decide⟩

/-- Every idea the truncated-recovery scan accumulates passed `keepIdea`. -/
theorem recoverAux_all (P : Json → Prop)
    (hP : ∀ cs o, o ∈ keepIdea cs → P o) :
    ∀ (full rest : List Char) (i : Nat) (depth : Int) (start : Option Nat) (acc : List Json),
      (∀ o ∈ acc, P o) → ∀ o ∈ recoverAux full rest i depth start acc, P o := by
  intro full rest
  induction rest with
  | nil => intro i depth start acc hacc o ho; exact hacc o ho
  | cons c cs ih =>
    intro i depth start acc hacc o ho
    unfold recoverAux at ho
    split at ho
    · exact ih _ _ _ _ hacc o ho
    · split at ho
      · split at ho
        · split at ho
          · refine ih _ _ _ _ ?_ o ho
            intro x hx
            rcases List.mem_append.mp hx with hx | hx
            · exact hacc x hx
            · exact hP _ x hx
          · exact ih _ _ _ _ hacc o ho
        · exact ih _ _ _ _ hacc o ho
      · exact ih _ _ _ _ hacc o ho

/-- Anything `keepIdea` keeps is a dict with a `title` or `id` key. -/
theorem keepIdea_shape (cs : List Char) (o : Json) (h : o ∈ keepIdea cs) :
    ∃ ms, o = Json.obj ms ∧ (dictHasKey "title" ms || dictHasKey "id" ms) = true := by
  unfold keepIdea at h
  split at h
  · rename_i ms heq
    split at h
    · rename_i hk
      rcases List.mem_singleton.mp h with rfl
      exact ⟨ms, rfl, hk⟩
    · cases h
  · cases h

/--
C7, amended: `generate_ideas` returns the parsed model response unmodified —
in particular its result does not depend on the requested `ideas_count`, so
no at-most-N bound, title validation, deduplication or default-filling is
applied on the direct-parse path; the only record validation in the stage is
the Truncated-Output Recovery fallback, each of whose records is a dict
containing a `title` or `id` key.
-/
theorem claim_C7_no_validation :
    (∀ (prev : List String) (c1 c2 : Nat) (resp : Option String),
      generate_ideas prev c1 resp = generate_ideas prev c2 resp)
    ∧ (∀ (s : String) (o : Json), o ∈ recover_truncated_json s →
        ∃ ms, o = Json.obj ms ∧ (dictHasKey "title" ms || dictHasKey "id" ms) = true) := by
  constructor
  · intro prev c1 c2 resp
    cases resp <;> rfl
  · intro s o ho
    exact recoverAux_all _ (fun cs o ho => keepIdea_shape cs o ho)
      s.data s.data 0 0 none [] (by intro x hx; cases hx) o ho

/-- Witness for the amended C7: count-independence at 1 vs 5, and the shape
of a record recovered from a truncated response. -/
theorem claim_C7_witness :
    (generate_ideas [] 1 (some "[\x7b\"title\": \"A\"\x7d]")
      = generate_ideas [] 5 (some "[\x7b\"title\": \"A\"\x7d]"))
    ∧ (Json.obj [("title", Json.str "A")]
        ∈ recover_truncated_json "[\x7b\"title\": \"A\"\x7d, \x7b\"title\": \"B"
      ∧ ∃ ms, Json.obj [("title", Json.str "A")] = Json.obj ms
          ∧ (dictHasKey "title" ms || dictHasKey "id" ms) = true) :=
  ⟨claim_C7_no_validation.1 [] 1 5 (some "[\x7b\"title\": \"A\"\x7d]"),
    ⟨by rw [show recover_truncated_json "[\x7b\"title\": \"A\"\x7d, \x7b\"title\": \"B"
        = [Json.obj [("title", Json.str "A")]] from rfl]; exact List.mem_singleton.mpr rfl,
      claim_C7_no_validation.2 "[\x7b\"title\": \"A\"\x7d, \x7b\"title\": \"B"
        (Json.obj [("title", Json.str "A")])
        (by rw [show recover_truncated_json "[\x7b\"title\": \"A\"\x7d, \x7b\"title\": \"B"
            = [Json.obj [("title", Json.str "A")]] from rfl]; exact List.mem_singleton.mpr rfl)⟩⟩

end CCE

namespace CCE

/-! ### Claims C4 and C5: the learning recomputation -/

/-- The value `engagement_score` computes whenever it does not raise. -/
def scoreVal (e : Engagement) : ℚ :=
  ((e.likes.getD 0 + e.comments.getD 0 * 2 + e.shares.getD 0 * 3
    + e.saves.getD 0 * 3 : Int) : ℚ) / ((e.views.getD 1 : Int) : ℚ)

theorem score_eq_of_pos (e : Engagement) (h : 0 < e.views.getD 0) :
    engagement_score e = some (scoreVal e) := by
  cases hv : e.views with
  | none => rw [hv] at h; simp at h
  | some v =>
    have hv0 : ¬ v = 0 := by
      rw [hv] at h
      simp only [Option.getD_some] at h
      omega
    unfold engagement_score scoreVal
    rw [hv]
    simp [hv0]

theorem mapM_eq_map {α β : Type} (l : List α) (f : α → Option β) (g : α → β)
    (h : ∀ x ∈ l, f x = some (g x)) : l.mapM f = some (l.map g) := by
  induction l with
  | nil => rfl
  | cons a as ih =>
    rw [List.mapM_cons, h a (by simp), ih (fun x hx => h x (List.mem_cons_of_mem _ hx))]
    rfl

/-- The scored filtered reels, as a total function (every reel in the filter
has positive views, so no score evaluation can raise). -/
def scoredOf (reels : List Reel) : List (Reel × ℚ) :=
  (reels_with_engagement reels).map (fun r => (r, scoreVal r.engagement))

/-- `best_performing_hooks` as recomputed from the reels. -/
def hooksOf (reels : List Reel) : List HookRec :=
  ((sortStable (fun a b => decide (b.2 ≤ a.2)) (scoredOf reels)).take 5).map
    (fun rq =>
      { hook := firstSentence rq.1.script, title := rq.1.title, engagement_score := rq.2 })

/-- `avg_engagement_rate` as recomputed from the reels. -/
def rateOf (reels : List Reel) : ℚ :=
  pyRound4 (((scoredOf reels).map Prod.snd).sum / ((reels_with_engagement reels).length : ℚ))

/-- What one recomputation does to a `learned_patterns` record, as a total
function: the prior record `lp` survives in every field the source does not
assign. -/
def computedLP (now : String) (reels : List Reel) (lp : LearnedPatterns) : LearnedPatterns :=
  let lp1 : LearnedPatterns :=
    { lp with
      auto_generated := true
      last_updated := some now
      avg_script_length := avg_script_length_of reels }
  let lp2 : LearnedPatterns :=
    if (reels_with_engagement reels).isEmpty then lp1
    else
      { lp1 with
        best_performing_hooks := hooksOf reels
        engagement_insights :=
          { lp1.engagement_insights with avg_engagement_rate := some (rateOf reels) } }
  { lp2 with common_topics := common_topics_of reels }

theorem update_learned_patterns_eq (now : String) (p : Persona)
    (h : p.existing_reels.isEmpty = false) :
    update_learned_patterns now p
      = some { p with learned_patterns := computedLP now p.existing_reels p.learned_patterns } := by
  unfold update_learned_patterns computedLP
  rw [if_neg (by simp [h])]
  have hmap : (reels_with_engagement p.existing_reels).mapM
      (fun r => (engagement_score r.engagement).map (fun q => (r, q)))
      = some ((reels_with_engagement p.existing_reels).map (fun r => (r, scoreVal r.engagement))) := by
    apply mapM_eq_map
    intro r hr
    have hpos : 0 < r.engagement.views.getD 0 := by
      simpa using (List.mem_filter.mp hr).2
    rw [score_eq_of_pos r.engagement hpos]
    rfl
  by_cases hwe : (reels_with_engagement p.existing_reels).isEmpty
  · simp [hwe]
  · have hwe' : (reels_with_engagement p.existing_reels).isEmpty = false := by
      simpa using hwe
    simp only [hwe', Bool.false_eq_true, if_false]
    rw [hmap]
    simp [scoredOf, hooksOf, rateOf]

theorem update_learned_patterns_isSome (now : String) (p : Persona) :
    (update_learned_patterns now p).isSome = true := by
  cases h : p.existing_reels.isEmpty with
  | true =>
    unfold update_learned_patterns
    rw [if_pos (by simp [h])]
    rfl
  | false => rw [update_learned_patterns_eq now p h]; rfl

/--
C4. Learned-pattern recomputation never raises (in particular not when some
reel's `views` field is 0 — such reels are filtered out before any score is
computed), and for every reel the recomputation actually scores — those with
positive views — the computed engagement score equals
`(likes + 2*comments + 3*shares + 3*saves) / max(views, 1)`.
-/
theorem claim_C4_engagement_score (p : Persona) (now : String) :
    (update_learned_patterns now p).isSome = true
    ∧ ∀ r ∈ reels_with_engagement p.existing_reels,
        engagement_score r.engagement
          = some (((r.engagement.likes.getD 0 + 2 * r.engagement.comments.getD 0
              + 3 * r.engagement.shares.getD 0 + 3 * r.engagement.saves.getD 0 : Int) : ℚ)
            / ((max (r.engagement.views.getD 0) 1 : Int) : ℚ)) := by
  refine ⟨update_learned_patterns_isSome now p, ?_⟩
  intro r hr
  have hpos : 0 < r.engagement.views.getD 0 := by
    simpa using (List.mem_filter.mp hr).2
  rw [score_eq_of_pos r.engagement hpos]
  unfold scoreVal
  cases hv : r.engagement.views with
  | none => rw [hv] at hpos; simp at hpos
  | some v =>
    rw [hv] at hpos
    simp only [Option.getD_some] at hpos ⊢
    have hmax : max v 1 = v := by omega
    rw [hmax]
    have hnum : (r.engagement.likes.getD 0 + r.engagement.comments.getD 0 * 2
        + r.engagement.shares.getD 0 * 3 + r.engagement.saves.getD 0 * 3 : Int)
        = (r.engagement.likes.getD 0 + 2 * r.engagement.comments.getD 0
          + 3 * r.engagement.shares.getD 0 + 3 * r.engagement.saves.getD 0 : Int) := by ring
    rw [hnum]

def emptyLP : LearnedPatterns :=
  { auto_generated := false, last_updated := none, best_performing_hooks := [],
    avg_script_length := 0, common_topics := [], engagement_insights := ⟨none, none, none⟩ }

def witReel : Reel :=
  { id := "reel_001", title := "SAT Vocab Hacks", script := "Do this. Then that.",
    engagement := ⟨some 5, some 1, some 1, some 1, some 1⟩, date := "2026-10-01" }

def witPersona : Persona :=
  { persona_id := "sat_coach",
    basic_info := ⟨"Coach", "SAT Exam Preparation", "students", "friendly", []⟩,
    existing_reels := [witReel], learned_patterns := emptyLP }

/-- Witness for C4 at a concrete persona whose reel has 5 views. -/
theorem claim_C4_witness :
    (update_learned_patterns "2026-10-12T08:00:00" witPersona).isSome = true
    ∧ witReel ∈ reels_with_engagement witPersona.existing_reels
    ∧ engagement_score witReel.engagement
      = some (((witReel.engagement.likes.getD 0 + 2 * witReel.engagement.comments.getD 0
          + 3 * witReel.engagement.shares.getD 0 + 3 * witReel.engagement.saves.getD 0 : Int) : ℚ)
        / ((max (witReel.engagement.views.getD 0) 1 : Int) : ℚ)) :=
  ⟨(claim_C4_engagement_score witPersona "2026-10-12T08:00:00").1, by decide,
    (claim_C4_engagement_score witPersona "2026-10-12T08:00:00").2 witReel (by decide)⟩

end CCE

namespace CCE

theorem computedLP_auto_generated (now : String) (reels : List Reel) (lp : LearnedPatterns) :
    (computedLP now reels lp).auto_generated = true := by
  unfold computedLP
  by_cases h : (reels_with_engagement reels).isEmpty <;> simp [h]

theorem computedLP_last_updated (now : String) (reels : List Reel) (lp : LearnedPatterns) :
    (computedLP now reels lp).last_updated = some now := by
  unfold computedLP
  by_cases h : (reels_with_engagement reels).isEmpty <;> simp [h]

theorem computedLP_avg_script_length (now : String) (reels : List Reel) (lp : LearnedPatterns) :
    (computedLP now reels lp).avg_script_length = avg_script_length_of reels := by
  unfold computedLP
  by_cases h : (reels_with_engagement reels).isEmpty <;> simp [h]

theorem computedLP_common_topics (now : String) (reels : List Reel) (lp : LearnedPatterns) :
    (computedLP now reels lp).common_topics = common_topics_of reels := by
  unfold computedLP
  by_cases h : (reels_with_engagement reels).isEmpty <;> simp [h]

theorem computedLP_hooks (now : String) (reels : List Reel) (lp : LearnedPatterns)
    (h : (reels_with_engagement reels).isEmpty = false) :
    (computedLP now reels lp).best_performing_hooks = hooksOf reels := by
  unfold computedLP
  simp [h]

theorem computedLP_rate (now : String) (reels : List Reel) (lp : LearnedPatterns)
    (h : (reels_with_engagement reels).isEmpty = false) :
    (computedLP now reels lp).engagement_insights.avg_engagement_rate = some (rateOf reels) := by
  unfold computedLP
  simp [h]

def cexEngagement : Engagement := ⟨some 0, some 9, some 0, some 0, some 0⟩

def cexReel : Reel :=
  { id := "reel_001", title := "Quiet launch diary", script := "Hello there.",
    engagement := cexEngagement, date := "2026-09-01" }

def cexP1 : Persona :=
  { persona_id := "a",
    basic_info := ⟨"A", "SAT Exam Preparation", "students", "friendly", []⟩,
    existing_reels := [cexReel], learned_patterns := emptyLP }

def cexP2 : Persona :=
  { cexP1 with
    learned_patterns :=
      { emptyLP with best_performing_hooks := [⟨"Old hook.", "Old title", (3 : ℚ)⟩] } }

/--
C5, counterexample. Two personas with identical `existing_reels` (one reel
whose `views` is 0) but different prior `best_performing_hooks` go through a
learning-triggering operation (`update_engagement`); because no reel has
positive views, the recomputation keeps each persona's prior hooks, so the
resulting `learned_patterns` differ even though the reel histories are equal —
`learned_patterns` after recomputation is not a pure function of
`existing_reels`.
-/
theorem claim_C5_counterexample :
    cexP1.existing_reels = cexP2.existing_reels
    ∧ (update_engagement cexP1 "reel_001" cexEngagement "2026-10-12T08:00:00").map
        Persona.existing_reels
      = (update_engagement cexP2 "reel_001" cexEngagement "2026-10-12T08:00:00").map
        Persona.existing_reels
    ∧ (update_engagement cexP1 "reel_001" cexEngagement "2026-10-12T08:00:00").isSome = true
    ∧ (update_engagement cexP1 "reel_001" cexEngagement "2026-10-12T08:00:00").map
        Persona.learned_patterns
      ≠ (update_engagement cexP2 "reel_001" cexEngagement "2026-10-12T08:00:00").map
        Persona.learned_patterns :=
  ⟨rfl, rfl, rfl, by decide⟩

/--
C5, amended: after a learning recomputation on a persona with at least one
reel, the recomputed fields are pure functions of `existing_reels` — any two
personas with equal reels get equal `auto_generated`, `last_updated` (given
the same clock), `avg_script_length` and `common_topics`, and, when at least
one reel has positive views, equal `best_performing_hooks` and
`avg_engagement_rate` as well. Prior `learned_patterns` contents survive only
in the fields the recomputation does not assign: everything, when
`existing_reels` is empty (early return); the hooks and the average rate,
when no reel has positive views; and the untouched insight fields always.
-/
theorem claim_C5_recomputed_fields_pure (p q rp rq : Persona) (now : String)
    (hreels : p.existing_reels = q.existing_reels)
    (hne : p.existing_reels.isEmpty = false)
    (hp : update_learned_patterns now p = some rp)
    (hq : update_learned_patterns now q = some rq) :
    rp.existing_reels = p.existing_reels
    ∧ rq.existing_reels = q.existing_reels
    ∧ rp.learned_patterns.auto_generated = rq.learned_patterns.auto_generated
    ∧ rp.learned_patterns.last_updated = rq.learned_patterns.last_updated
    ∧ rp.learned_patterns.avg_script_length = rq.learned_patterns.avg_script_length
    ∧ rp.learned_patterns.common_topics = rq.learned_patterns.common_topics
    ∧ ((reels_with_engagement p.existing_reels).isEmpty = false →
        rp.learned_patterns.best_performing_hooks = rq.learned_patterns.best_performing_hooks
        ∧ rp.learned_patterns.engagement_insights.avg_engagement_rate
          = rq.learned_patterns.engagement_insights.avg_engagement_rate) := by
  have hne' : q.existing_reels.isEmpty = false := by rw [← hreels]; exact hne
  rw [update_learned_patterns_eq now p hne] at hp
  rw [update_learned_patterns_eq now q hne'] at hq
  have hrp := (Option.some.inj hp).symm
  have hrq := (Option.some.inj hq).symm
  subst hrp
  subst hrq
  refine ⟨rfl, rfl, ?_, ?_, ?_, ?_, ?_⟩
  · simp [computedLP_auto_generated]
  · simp [computedLP_last_updated]
  · simp [computedLP_avg_script_length, hreels]
  · simp [computedLP_common_topics, hreels]
  · intro hwe
    have hwe' : (reels_with_engagement q.existing_reels).isEmpty = false := by
      rw [← hreels]; exact hwe
    constructor
    · simp [computedLP_hooks _ _ _ hwe, computedLP_hooks _ _ _ hwe', hreels]
    · simp [computedLP_rate _ _ _ hwe, computedLP_rate _ _ _ hwe', hreels]

end CCE

namespace CCE

def witP2 : Persona :=
  { witPersona with
    learned_patterns := { emptyLP with engagement_insights := ⟨some "9am", none, none⟩ } }

def witRP : Persona :=
  { witPersona with
    learned_patterns :=
      computedLP "2026-10-12T08:00:00" witPersona.existing_reels witPersona.learned_patterns }

def witRQ : Persona :=
  { witP2 with
    learned_patterns :=
      computedLP "2026-10-12T08:00:00" witP2.existing_reels witP2.learned_patterns }

/-- Witness for the amended C5 at two concrete personas that share the reel
history (one reel with 5 views) but differ in a retained prior field. -/
theorem claim_C5_witness :
    (witPersona.existing_reels = witP2.existing_reels
      ∧ witPersona.existing_reels.isEmpty = false
      ∧ update_learned_patterns "2026-10-12T08:00:00" witPersona = some witRP
      ∧ update_learned_patterns "2026-10-12T08:00:00" witP2 = some witRQ)
    ∧ (witRP.existing_reels = witPersona.existing_reels
      ∧ witRQ.existing_reels = witP2.existing_reels
      ∧ witRP.learned_patterns.auto_generated = witRQ.learned_patterns.auto_generated
      ∧ witRP.learned_patterns.last_updated = witRQ.learned_patterns.last_updated
      ∧ witRP.learned_patterns.avg_script_length = witRQ.learned_patterns.avg_script_length
      ∧ witRP.learned_patterns.common_topics = witRQ.learned_patterns.common_topics
      ∧ ((reels_with_engagement witPersona.existing_reels).isEmpty = false →
          witRP.learned_patterns.best_performing_hooks
            = witRQ.learned_patterns.best_performing_hooks
          ∧ witRP.learned_patterns.engagement_insights.avg_engagement_rate
            = witRQ.learned_patterns.engagement_insights.avg_engagement_rate)) :=
  ⟨⟨rfl, rfl, update_learned_patterns_eq _ _ rfl, update_learned_patterns_eq _ _ rfl⟩,
    claim_C5_recomputed_fields_pure witPersona witP2 witRP witRQ "2026-10-12T08:00:00"
      rfl rfl (update_learned_patterns_eq _ _ rfl) (update_learned_patterns_eq _ _ rfl)⟩

end CCE

namespace CCE

/-! ### Claim C1: the pipeline's exit contract -/

theorem dictGet_insert_self (k : String) (v : Json) :
    ∀ ms : List (String × Json), dictGet k (dictInsert k v ms) = some v
  | [] => by simp [dictInsert, dictGet]
  | (k0, v0) :: rest => by
    by_cases h : k0 = k
    · simp [dictInsert, dictGet, h]
    · simp [dictInsert, dictGet, h, dictGet_insert_self k v rest]

theorem dictGet_insert_other (k k' : String) (v : Json) (hne : ¬ k' = k) :
    ∀ ms : List (String × Json), dictGet k (dictInsert k' v ms) = dictGet k ms
  | [] => by simp [dictInsert, dictGet, hne]
  | (k0, v0) :: rest => by
    by_cases h : k0 = k'
    · subst h
      simp [dictInsert, dictGet, hne]
    · simp [dictInsert, dictGet, h, dictGet_insert_other k k' v hne rest]

theorem validate_script_obj (j s : Json) (h : validate_script j = Except.ok s) :
    isObjB s = true := by
  unfold validate_script at h
  split at h
  · simp only [] at h
    split at h
    · simp at h
    · split at h
      · injection h with h'
        rw [← h']
        rfl
      · split at h
        all_goals
          first
            | (injection h with h'
               rw [← h']
               rfl)
            | simp at h
  · simp at h

theorem write_script_obj (resp : Option String) : isObjB (write_script resp) = true := by
  cases resp with
  | none => rfl
  | some r =>
    have hw : write_script (some r)
        = match validate_script (parse_script_response r) with
          | Except.ok s => s
          | Except.error _ => emptyScriptJson := rfl
    rw [hw]
    cases hv : validate_script (parse_script_response r) with
    | ok s => exact validate_script_obj _ s hv
    | error e => rfl

theorem ideaRecordOkB_spec (j : Json) (h : ideaRecordOkB j = true) :
    isObjB j = true ∧ scalarB ((jsonGet j "id").getD Json.null) = true := by
  cases j with
  | obj ms =>
    refine ⟨rfl, ?_⟩
    unfold ideaRecordOkB at h
    cases hg : dictGet "id" ms with
    | none => simp [jsonGet, hg, scalarB]
    | some v =>
      simp [hg] at h
      simpa [jsonGet, hg] using h
  | null => simp [ideaRecordOkB] at h
  | bool b => simp [ideaRecordOkB] at h
  | num n => simp [ideaRecordOkB] at h
  | str s0 => simp [ideaRecordOkB] at h
  | arr xs => simp [ideaRecordOkB] at h

theorem script_ideaId_get (s0 v w : Json) (h : isObjB s0 = true) :
    jsonGet (jsonSetKey (jsonSetKey s0 "idea_id" v) "idea_title" w) "idea_id" = some v := by
  cases s0 with
  | obj ms =>
    show dictGet "idea_id" (dictInsert "idea_title" w (dictInsert "idea_id" v ms)) = some v
    rw [dictGet_insert_other _ _ _ (by decide), dictGet_insert_self]
  | null => simp [isObjB] at h
  | bool b => simp [isObjB] at h
  | num n => simp [isObjB] at h
  | str s => simp [isObjB] at h
  | arr xs => simp [isObjB] at h

theorem write_scripts_batch_ok (l : List Json) (resps : Nat → Option String)
    (h : ∀ j ∈ l, ideaRecordOkB j = true) :
    ∃ ss, write_scripts_batch l resps = Except.ok ss
      ∧ ∀ s ∈ ss, scalarB ((jsonGet s "idea_id").getD Json.null) = true := by
  induction l generalizing resps with
  | nil => exact ⟨[], rfl, by intro s hs; cases hs⟩
  | cons j rest ih =>
    obtain ⟨hobj, hid⟩ := ideaRecordOkB_spec j (h j (by simp))
    obtain ⟨ss, hss, hscal⟩ :=
      ih (fun i => resps (i + 1)) (fun x hx => h x (List.mem_cons_of_mem _ hx))
    cases j with
    | obj ms =>
      unfold write_scripts_batch
      rw [hss]
      refine ⟨_, rfl, ?_⟩
      intro s hs
      rcases List.mem_cons.mp hs with rfl | hs'
      · simpa [script_ideaId_get _ _ _ (write_script_obj (resps 0))] using hid
      · exact hscal s hs'
    | null => simp [isObjB] at hobj
    | bool b => simp [isObjB] at hobj
    | num n => simp [isObjB] at hobj
    | str s0 => simp [isObjB] at hobj
    | arr xs => simp [isObjB] at hobj

theorem buildIdeasMap_ok (l : List Json) (h : ∀ j ∈ l, ideaRecordOkB j = true) :
    ∀ acc, ∃ m, buildIdeasMap l acc = Except.ok m := by
  induction l with
  | nil => exact fun acc => ⟨acc, rfl⟩
  | cons j rest ih =>
    intro acc
    obtain ⟨hobj, hid⟩ := ideaRecordOkB_spec j (h j (by simp))
    cases j with
    | obj ms =>
      obtain ⟨m, hm⟩ := ih (fun x hx => h x (List.mem_cons_of_mem _ hx))
        (jmapInsert ((jsonGet (Json.obj ms) "id").getD Json.null) (Json.obj ms) acc)
      refine ⟨m, ?_⟩
      unfold buildIdeasMap
      rw [hid]
      simpa using hm
    | null => simp [isObjB] at hobj
    | bool b => simp [isObjB] at hobj
    | num n => simp [isObjB] at hobj
    | str s0 => simp [isObjB] at hobj
    | arr xs => simp [isObjB] at hobj

theorem visualsLoop_ok (m : List (Json × Json)) :
    ∀ (ss : List Json) (resps : Nat → Option String),
      (∀ s ∈ ss, scalarB ((jsonGet s "idea_id").getD Json.null) = true) →
      ∃ vs, visualsLoop m ss resps = Except.ok vs
  | [], _, _ => ⟨[], rfl⟩
  | script :: rest, resps, h => by
    obtain ⟨vs, hvs⟩ := visualsLoop_ok m rest (fun i => resps (i + 1))
      (fun x hx => h x (List.mem_cons_of_mem _ hx))
    have hs := h script (by simp)
    have heq : visualsLoop m (script :: rest) resps
        = Except.ok (jsonSetKey (suggest_visuals script
            ((jmapLookup ((jsonGet script "idea_id").getD Json.null) m).getD
              (Json.obj [("title", (jsonGet script "idea_title").getD Json.null)]))
            (resps 0)) "idea_id" ((jsonGet script "idea_id").getD Json.null) :: vs) := by
      unfold visualsLoop
      simp only [hs, if_true, hvs]
    exact ⟨_, heq⟩

theorem suggest_visuals_batch_ok (ss l : List Json) (resps : Nat → Option String)
    (h : ∀ j ∈ l, ideaRecordOkB j = true)
    (hsc : ∀ s ∈ ss, scalarB ((jsonGet s "idea_id").getD Json.null) = true) :
    ∃ vs, suggest_visuals_batch ss l resps = Except.ok vs := by
  obtain ⟨m, hm⟩ := buildIdeasMap_ok l h []
  obtain ⟨vs, hvs⟩ := visualsLoop_ok m ss resps hsc
  refine ⟨vs, ?_⟩
  unfold suggest_visuals_batch
  rw [hm]
  exact hvs

/--
C1, amended. For every persona and every combination of source-adapter
failures (arbitrary `Except.error` outcomes in `env`, any configuration
flags) and generative-model/parse failures (a failed or `None` idea
response, any failed script or visual responses), PROVIDED every record of a
successful idea response is a dict whose `id` is absent or a hashable
scalar: `ContentPipeline.run` completes with a `ContentOutput` whenever the
artifact save succeeds, and it propagates an error exactly when the artifact
save fails. Without that proviso the contract is false: a recovered record
with a dict-valued `id` raises `TypeError` out of `suggest_visuals_batch`'s
`ideas_map` comprehension before the save is reached (see the
counterexample).
-/
theorem claim_C1_run_exit_contract (persona : Persona) (prevTitles : List String)
    (ideasCount : Nat) (skipScraping useCachedResearch : Bool) (cached : Option ResearchData)
    (env : ResearchEnv) (ideaResp : Option String)
    (scriptResps visualResps : Nat → Option String)
    (saveResult : Except String String) (dateStr now : String)
    (hIdeas : ∀ r, ideaResp = some r → IdeaRespOkB r = true) :
    (∀ e, saveResult = Except.error e →
      pipeline_run persona prevTitles ideasCount skipScraping useCachedResearch cached env
        ideaResp scriptResps visualResps saveResult dateStr now = Except.error e)
    ∧ (∀ path, saveResult = Except.ok path →
      ∃ out,
        pipeline_run persona prevTitles ideasCount skipScraping useCachedResearch cached env
          ideaResp scriptResps visualResps saveResult dateStr now = Except.ok out
        ∧ out.output_file = some path) := by
  obtain ⟨p, hp⟩ := Option.isSome_iff_exists.mp (update_learned_patterns_isSome now persona)
  have hplist : ∃ l, pyIterList (generate_ideas prevTitles ideasCount ideaResp) = Except.ok l
      ∧ ∀ j ∈ l, ideaRecordOkB j = true := by
    cases ideaResp with
    | none => exact ⟨[], rfl, by intro j hj; cases hj⟩
    | some r =>
      have hok := hIdeas r rfl
      unfold IdeaRespOkB at hok
      have hgen : generate_ideas prevTitles ideasCount (some r) = parse_ideas_response r := by
        cases prevTitles <;> rfl
      cases hpr : parse_ideas_response r with
      | arr l =>
        rw [hpr] at hok
        refine ⟨l, by rw [hgen, hpr]; rfl, ?_⟩
        intro j hj
        exact (List.all_eq_true.mp hok) j hj
      | null => rw [hpr] at hok; simp at hok
      | bool b => rw [hpr] at hok; simp at hok
      | num n => rw [hpr] at hok; simp at hok
      | str s => rw [hpr] at hok; simp at hok
      | obj ms => rw [hpr] at hok; simp at hok
  obtain ⟨l, hl, hlrec⟩ := hplist
  obtain ⟨ss, hss, hsscal⟩ := write_scripts_batch_ok l scriptResps hlrec
  obtain ⟨vs, hvs⟩ := suggest_visuals_batch_ok ss l visualResps hlrec hsscal
  have hpersona : get_persona_for_generation now persona = some p := hp
  constructor
  · intro e he
    simp only [pipeline_run, hpersona, hl, hss, hvs, he]
  · intro path hpath
    have heq : pipeline_run persona prevTitles ideasCount skipScraping useCachedResearch cached env
        ideaResp scriptResps visualResps saveResult dateStr now
        = Except.ok
          { date := dateStr, persona_id := p.persona_id, niche := p.basic_info.niche,
            research_data :=
              if skipScraping then emptyResearch
              else
                match useCachedResearch, cached with
                | true, some data => data
                | _, _ => run_research env,
            ideas := generate_ideas prevTitles ideasCount ideaResp, scripts := ss, visuals := vs,
            ideas_requested := ideasCount, output_file := some path } := by
      simp only [pipeline_run, hpersona, hl, hss, hvs, hpath]
    exact ⟨_, heq, rfl⟩

end CCE

namespace CCE

def witEnv : ResearchEnv :=
  { redditConfigured := true,
    redditResults := [Except.ok [Json.str "post"], Except.error "quota"],
    newsConfigured := true, newsResult := Except.error "network",
    instagramConfigured := false, instagramResult := Except.error "unconfigured",
    youtubeConfigured := true, youtubeResult := Except.ok [],
    youtubeTrending := Except.error "http",
    serperConfigured := false, serperResult := Except.error "unconfigured",
    serperQuestions := Except.error "unconfigured",
    serperRelated := Except.error "unconfigured" }

/-- Witness for C1: two failing sources, a failing trending call, every
script/visual generation call failing, a nominal idea response, and a
successful save — the run still completes with an artifact. -/
theorem claim_C1_witness :
    (∀ r, (some "[\x7b\"title\": \"A\"\x7d]" : Option String) = some r → IdeaRespOkB r = true)
    ∧ ∃ out,
        pipeline_run witPersona [] 3 false false none witEnv
          (some "[\x7b\"title\": \"A\"\x7d]") (fun _ => none) (fun _ => none)
          (Except.ok "out/2026-10-12_080000_sat_coach_content.json")
          "2026-10-12" "2026-10-12T08:00:00" = Except.ok out
        ∧ out.output_file = some "out/2026-10-12_080000_sat_coach_content.json" :=
  ⟨fun r h => by injection h with h'; subst h'; decide,
    (claim_C1_run_exit_contract witPersona [] 3 false false none witEnv
      (some "[\x7b\"title\": \"A\"\x7d]") (fun _ => none) (fun _ => none)
      (Except.ok "out/2026-10-12_080000_sat_coach_content.json")
      "2026-10-12" "2026-10-12T08:00:00"
      (fun r h => by injection h with h'; subst h'; decide)).2
      "out/2026-10-12_080000_sat_coach_content.json" rfl⟩

end CCE

namespace CCE

def c1Persona : Persona :=
  { persona_id := "sat_coach",
    basic_info := ⟨"Coach", "SAT Exam Preparation", "students", "friendly", []⟩,
    existing_reels := [], learned_patterns := emptyLP }

/--
C1, counterexample. The run can raise although the artifact save succeeds:
the idea response `[\x7b"id": \x7b"x": 1\x7d\x7d, \x7b"title": "tr` is truncated, so
parsing falls back to truncated-output recovery, which keeps the leading
record (it has an `id` key) even though that `id` is a dict; scripts are
written, and then the `ideas_map` comprehension of `suggest_visuals_batch`
hashes the dict-valued `id` and raises `TypeError: unhashable type`, which
nothing in `ContentPipeline.run` catches. The pipeline therefore propagates
an error before the (successful) save is reached, refuting the claim that it
raises only when persisting the artifact fails.
-/
theorem claim_C1_counterexample :
    pipeline_run c1Persona [] 3 true false none witEnv
      (some "[\x7b\"id\": \x7b\"x\": 1\x7d\x7d, \x7b\"title\": \"tr")
      (fun _ => none) (fun _ => none)
      (Except.ok "out/2026-10-12_artifact.json") "2026-10-12" "2026-10-12T08:00:00"
      = Except.error "TypeError: unhashable type" := by
  rfl

end CCE

namespace CCE

/-! ### Claims C3 and C6: the truncated-output recovery scan

First, the index-slicing scan of `_recover_truncated_json` is proven equal to
the buffer-passing scan `scanRun`; the per-segment behaviour of `scanRun` is
then worked out for rendered record texts. -/

theorem drop_succ_of_drop_cons {full : List Char} {i : Nat} {c : Char} {cs : List Char}
    (h : full.drop i = c :: cs) : full.drop (i + 1) = cs := by
  rw [← List.tail_drop, h]
  rfl

theorem getElem?_of_drop_cons {full : List Char} {i : Nat} {c : Char} {cs : List Char}
    (h : full.drop i = c :: cs) : full[i]? = some c := by
  have h0 : (full.drop i)[0]? = some c := by rw [h]; simp
  rw [List.getElem?_drop] at h0
  simpa using h0

theorem slice_extend {full : List Char} {i s : Nat} {c : Char} {cs : List Char}
    (hs : s ≤ i) (h : full.drop i = c :: cs) :
    (full.drop s).take (i + 1 - s) = (full.drop s).take (i - s) ++ [c] := by
  have h1 : i + 1 - s = (i - s) + 1 := by omega
  rw [h1, List.take_succ]
  have h2 : (full.drop s)[i - s]? = some c := by
    rw [List.getElem?_drop]
    have h3 : s + (i - s) = i := by omega
    rw [h3]
    exact getElem?_of_drop_cons h
  rw [h2]
  rfl

theorem recoverAux_eq_scanRun :
    ∀ (rest full : List Char) (i : Nat) (depth : Int) (start : Option Nat) (acc : List Json),
      full.drop i = rest →
      (∀ s, start = some s → s ≤ i) →
      recoverAux full rest i depth start acc
        = (scanRun rest
            ⟨depth, start.map (fun s => (full.drop s).take (i - s)), acc⟩).acc := by
  intro rest
  induction rest with
  | nil => intro full i depth start acc _ _; rfl
  | cons c cs ih =>
    intro full i depth start acc hdrop hstart
    have hdrop' : full.drop (i + 1) = cs := drop_succ_of_drop_cons hdrop
    have hrun : scanRun (c :: cs)
        ⟨depth, start.map (fun s => (full.drop s).take (i - s)), acc⟩
        = scanRun cs
          (scanStep ⟨depth, start.map (fun s => (full.drop s).take (i - s)), acc⟩ c) := rfl
    rw [hrun]
    unfold recoverAux
    by_cases h1 : c = '{'
    · rw [if_pos h1]
      unfold scanStep
      rw [if_pos h1]
      by_cases h0 : depth = 0
      · rw [if_pos h0, if_pos h0]
        rw [ih full (i + 1) (depth + 1) (some i) acc hdrop' (by intro s hs; cases hs; omega)]
        have hbuf : (full.drop i).take 1 = [c] := by rw [hdrop]; rfl
        simp [hbuf]
      · rw [if_neg h0, if_neg h0]
        rw [ih full (i + 1) (depth + 1) start acc hdrop'
          (by intro s hs; exact Nat.le_succ_of_le (hstart s hs))]
        congr 2
        cases start with
        | none => rfl
        | some s =>
          simp only [Option.map_some']
          rw [slice_extend (hstart s rfl) hdrop]
    · rw [if_neg h1]
      by_cases h2 : c = '}'
      · rw [if_pos h2]
        unfold scanStep
        rw [if_neg h1, if_pos h2]
        cases start with
        | some s =>
          simp only [Option.map_some']
          by_cases h3 : depth - 1 = 0
          · rw [if_pos h3, if_pos h3]
            rw [ih full (i + 1) (depth - 1) none
              (acc ++ keepIdea ((full.drop s).take (i + 1 - s))) hdrop' (by intro t ht; cases ht)]
            rw [slice_extend (hstart s rfl) hdrop]
            rfl
          · rw [if_neg h3, if_neg h3]
            rw [ih full (i + 1) (depth - 1) (some s) acc hdrop'
              (by intro t ht; cases ht; exact Nat.le_succ_of_le (hstart s rfl))]
            simp only [Option.map_some']
            rw [slice_extend (hstart s rfl) hdrop]
        | none =>
          simp only [Option.map_none']
          rw [ih full (i + 1) (depth - 1) none acc hdrop' (by intro t ht; cases ht)]
          rfl
      · rw [if_neg h2]
        unfold scanStep
        rw [if_neg h1, if_neg h2]
        rw [ih full (i + 1) depth start acc hdrop'
          (by intro s hs; exact Nat.le_succ_of_le (hstart s hs))]
        congr 2
        cases start with
        | none => rfl
        | some s =>
          simp only [Option.map_some']
          rw [slice_extend (hstart s rfl) hdrop]

/-- The official scan equals the buffer scan. -/
theorem recover_eq_scanRun (s : String) :
    recover_truncated_json s = (scanRun s.data ⟨0, none, []⟩).acc := by
  unfold recover_truncated_json
  rw [recoverAux_eq_scanRun s.data s.data 0 0 none [] (by simp) (by intro t ht; cases ht)]
  rfl

end CCE

namespace CCE

def noBrace (cs : List Char) : Bool :=
  cs.all (fun c => ¬ c = '{' ∧ ¬ c = '}')

theorem scanRun_append (xs ys : List Char) (st : ScanSt) :
    scanRun (xs ++ ys) st = scanRun ys (scanRun xs st) := by
  unfold scanRun
  rw [List.foldl_append]

theorem scanStep_idle (c : Char) (acc : List Json) (h1 : ¬ c = '{') (h2 : ¬ c = '}') :
    scanStep ⟨0, none, acc⟩ c = ⟨0, none, acc⟩ := by
  unfold scanStep
  rw [if_neg h1, if_neg h2]
  rfl

theorem scanRun_idle (cs : List Char) (h : noBrace cs = true) (acc : List Json) :
    scanRun cs ⟨0, none, acc⟩ = ⟨0, none, acc⟩ := by
  induction cs with
  | nil => rfl
  | cons c cs ih =>
    have hc := (List.all_eq_true.mp h) c (by simp)
    have hcs : noBrace cs = true :=
      List.all_eq_true.mpr (fun x hx => (List.all_eq_true.mp h) x (List.mem_cons_of_mem _ hx))
    have hstep : scanRun (c :: cs) ⟨0, none, acc⟩ = scanRun cs (scanStep ⟨0, none, acc⟩ c) := rfl
    rw [hstep, scanStep_idle c acc (by simpa using (of_decide_eq_true hc).1)
      (by simpa using (of_decide_eq_true hc).2), ih hcs]

theorem scanStep_collect (c : Char) (b : List Char) (acc : List Json)
    (h1 : ¬ c = '{') (h2 : ¬ c = '}') :
    scanStep ⟨1, some b, acc⟩ c = ⟨1, some (b ++ [c]), acc⟩ := by
  unfold scanStep
  rw [if_neg h1, if_neg h2]
  rfl

theorem scanRun_collect (cs : List Char) (h : noBrace cs = true) (b : List Char) (acc : List Json) :
    scanRun cs ⟨1, some b, acc⟩ = ⟨1, some (b ++ cs), acc⟩ := by
  induction cs generalizing b with
  | nil => simp [scanRun]
  | cons c cs ih =>
    have hc := (List.all_eq_true.mp h) c (by simp)
    have hcs : noBrace cs = true :=
      List.all_eq_true.mpr (fun x hx => (List.all_eq_true.mp h) x (List.mem_cons_of_mem _ hx))
    have hstep : scanRun (c :: cs) ⟨1, some b, acc⟩ = scanRun cs (scanStep ⟨1, some b, acc⟩ c) := rfl
    rw [hstep, scanStep_collect c b acc (by simpa using (of_decide_eq_true hc).1)
      (by simpa using (of_decide_eq_true hc).2), ih hcs]
    simp

/-- Scanning one balanced flat object from an idle state emits exactly its
`keepIdea` result. -/
theorem scanRun_object (body : List Char) (h : noBrace body = true) (acc : List Json) :
    scanRun ('{' :: body ++ ['}']) ⟨0, none, acc⟩
      = ⟨0, none, acc ++ keepIdea ('{' :: body ++ ['}'])⟩ := by
  have hstep : scanRun ('{' :: (body ++ ['}'])) ⟨0, none, acc⟩
      = scanRun (body ++ ['}']) (scanStep ⟨0, none, acc⟩ '{') := rfl
  have hopen : scanStep ⟨0, none, acc⟩ '{' = ⟨1, some ['{'], acc⟩ := by
    unfold scanStep
    rw [if_pos rfl]
    rfl
  rw [List.cons_append, hstep, hopen, scanRun_append, scanRun_collect body h ['{'] acc]
  have hclose : scanRun ['}'] ⟨1, some ('{' :: body), acc⟩
      = ⟨0, none, acc ++ keepIdea ('{' :: body ++ ['}'])⟩ := by
    have h1 : scanRun ['}'] ⟨1, some ('{' :: body), acc⟩
        = scanStep ⟨1, some ('{' :: body), acc⟩ '}' := rfl
    rw [h1]
    unfold scanStep
    rw [if_neg (by decide), if_pos rfl]
    simp
  simpa using hclose

/-- Scanning an opened-but-never-closed flat object leaves the accumulator
untouched (the partial trailing object is excluded). -/
theorem scanRun_truncated (body : List Char) (h : noBrace body = true) (acc : List Json) :
    scanRun ('{' :: body) ⟨0, none, acc⟩ = ⟨1, some ('{' :: body), acc⟩ := by
  have hstep : scanRun ('{' :: body) ⟨0, none, acc⟩
      = scanRun body (scanStep ⟨0, none, acc⟩ '{') := rfl
  have hopen : scanStep ⟨0, none, acc⟩ '{' = ⟨1, some ['{'], acc⟩ := by
    unfold scanStep
    rw [if_pos rfl]
    rfl
  rw [hstep, hopen, scanRun_collect body h ['{'] acc]
  rfl

/-! ### Flat records and their rendered JSON texts -/

/-- A flat JSON record: string keys mapped to string values, the shape of the
idea objects the recovery scan is designed to salvage. -/
structure FlatRec where
  fields : List (String × String)

/-- Characters that need no escaping, are printable, and are not braces: the
scan counts every brace character, including those inside string literals, so
brace-valued strings are outside the salvageable shape. -/
def safeChar (c : Char) : Bool :=
  32 ≤ c.toNat && ¬ c = '"' && ¬ c = '\\' && ¬ c = '{' && ¬ c = '}'

def safeStr (s : String) : Bool := s.data.all safeChar

def recSafeB (r : FlatRec) : Bool := r.fields.all (fun kv => safeStr kv.1 && safeStr kv.2)

/-- The record holds an identifying `title` or `id` key. -/
def recTitledB (r : FlatRec) : Bool :=
  r.fields.any (fun kv => kv.1 = "title" || kv.1 = "id")

def renderField (kv : String × String) : List Char :=
  '"' :: kv.1.data ++ '"' :: ':' :: ' ' :: '"' :: kv.2.data ++ ['"']

def renderFieldsL : List (String × String) → List Char
  | [] => []
  | [kv] => renderField kv
  | kv :: rest => renderField kv ++ ',' :: ' ' :: renderFieldsL rest

/-- The standard JSON text of a flat record. -/
def renderRecL (r : FlatRec) : List Char :=
  '{' :: renderFieldsL r.fields ++ ['}']

/-- The `json.loads` value of a flat record. -/
def recToJson (r : FlatRec) : Json :=
  Json.obj (r.fields.map (fun kv => (kv.1, Json.str kv.2)))

/-- Comma-space-joined record texts (the element list of an array text). -/
def joinSep : List (List Char) → List Char
  | [] => []
  | [x] => x
  | x :: y :: rest => x ++ ',' :: ' ' :: joinSep (y :: rest)

end CCE

namespace CCE

theorem skipWs_cons_not_ws (c : Char) (cs : List Char) (h : jsonIsWs c = false) :
    skipWs (c :: cs) = c :: cs := by
  simp [skipWs, h]

theorem skipWs_cons_ws (c : Char) (cs : List Char) (h : jsonIsWs c = true) :
    skipWs (c :: cs) = skipWs cs := by
  simp [skipWs, h]

theorem safeChar_spec (c : Char) (h : safeChar c = true) :
    32 ≤ c.toNat ∧ ¬ c = '"' ∧ ¬ c = '\\' ∧ ¬ c = '{' ∧ ¬ c = '}' := by
  simp only [safeChar, Bool.and_eq_true, decide_eq_true_eq] at h
  exact ⟨h.1.1.1.1, h.1.1.1.2, h.1.1.2, h.1.2, h.2⟩

theorem parseStrBody_safe :
    ∀ (cs acc rest : List Char), cs.all safeChar = true →
      parseStrBody acc (cs ++ '"' :: rest) = some (String.mk (acc.reverse ++ cs), rest) := by
  intro cs
  induction cs with
  | nil =>
    intro acc rest _
    show parseStrBody acc ('"' :: rest) = _
    unfold parseStrBody
    rw [if_pos rfl]
    simp
  | cons c cs ih =>
    intro acc rest hall
    obtain ⟨h32, hq, hb, _, _⟩ := safeChar_spec c ((List.all_eq_true.mp hall) c (by simp))
    have hcs : cs.all safeChar = true :=
      List.all_eq_true.mpr (fun x hx => (List.all_eq_true.mp hall) x (List.mem_cons_of_mem _ hx))
    show parseStrBody acc (c :: (cs ++ '"' :: rest)) = _
    unfold parseStrBody
    rw [if_neg hq, if_neg hb, if_neg (by omega)]
    rw [ih (c :: acc) rest hcs]
    simp

theorem parseStrBody_string (s : String) (rest : List Char) (h : safeStr s = true) :
    parseStrBody [] (s.data ++ '"' :: rest) = some (s, rest) := by
  rw [parseStrBody_safe s.data [] rest h]
  cases s
  simp

/-- A safe string starts with no whitespace-sensitive or structural
character issues: the rendered key begins with `"`. -/
theorem parseValue_str (f : Nat) (v : String) (rest : List Char) (h : safeStr v = true) :
    parseValue (f + 1) ('"' :: (v.data ++ '"' :: rest)) = some (Json.str v, rest) := by
  unfold parseValue
  rw [skipWs_cons_not_ws '"' _ (by decide)]
  simp [parseStrBody_string v rest h]

theorem dictInsert_append (k : String) (v : Json) :
    ∀ (acc : List (String × Json)), (∀ p ∈ acc, ¬ p.1 = k) →
      dictInsert k v acc = acc ++ [(k, v)] := by
  intro acc
  induction acc with
  | nil => intro _; rfl
  | cons p rest ih =>
    intro h
    obtain ⟨k', v'⟩ := p
    unfold dictInsert
    rw [if_neg (h (k', v') (by simp))]
    rw [ih (fun q hq => h q (List.mem_cons_of_mem _ hq))]
    simp

theorem foldl_dictInsert_nodup :
    ∀ (fields : List (String × String)) (acc : List (String × Json)),
      (fields.map Prod.fst).Nodup →
      (∀ kv ∈ fields, ∀ p ∈ acc, ¬ p.1 = kv.1) →
      fields.foldl (fun a kv => dictInsert kv.1 (Json.str kv.2) a) acc
        = acc ++ fields.map (fun kv => (kv.1, Json.str kv.2)) := by
  intro fields
  induction fields with
  | nil => intro acc _ _; simp
  | cons kv rest ih =>
    intro acc hnd hdisj
    have hstep : dictInsert kv.1 (Json.str kv.2) acc = acc ++ [(kv.1, Json.str kv.2)] :=
      dictInsert_append kv.1 (Json.str kv.2) acc (fun p hp => hdisj kv (by simp) p hp)
    have hnd0 : (kv.1 :: rest.map Prod.fst).Nodup := by
      simpa using hnd
    have hnd' : (rest.map Prod.fst).Nodup := (List.nodup_cons.mp hnd0).2
    have hkv : kv.1 ∉ rest.map Prod.fst := (List.nodup_cons.mp hnd0).1
    have hdisj' : ∀ kv' ∈ rest, ∀ p ∈ acc ++ [(kv.1, Json.str kv.2)], ¬ p.1 = kv'.1 := by
      intro kv' hkv' p hp
      rcases List.mem_append.mp hp with hp | hp
      · exact hdisj kv' (List.mem_cons_of_mem _ hkv') p hp
      · rcases List.mem_singleton.mp hp with rfl
        intro hcontra
        exact hkv (by
          simp only [List.mem_map]
          exact ⟨kv', hkv', hcontra.symm⟩)
    show List.foldl _ (dictInsert kv.1 (Json.str kv.2) acc) rest = _
    rw [hstep, ih (acc ++ [(kv.1, Json.str kv.2)]) hnd' hdisj']
    simp

end CCE

namespace CCE

theorem parseValue_cons_ws (g : Nat) (c : Char) (X : List Char) (h : jsonIsWs c = true) :
    parseValue (g + 1) (c :: X) = parseValue (g + 1) X := by
  unfold parseValue
  rw [skipWs_cons_ws c X h]

theorem parseMembersAcc_render :
    ∀ (fields : List (String × String)) (fuel : Nat) (acc : List (String × Json)) (rest : List Char),
      fields ≠ [] →
      fields.all (fun kv => safeStr kv.1 && safeStr kv.2) = true →
      2 * fields.length ≤ fuel →
      parseMembersAcc (fuel + 1) acc (renderFieldsL fields ++ '}' :: rest)
        = some (fields.foldl (fun a kv => dictInsert kv.1 (Json.str kv.2) a) acc, rest)
  | [], _, _, _, hne, _, _ => absurd rfl hne
  | [kv], fuel, acc, rest, _, hall, hfuel => by
    have hkv : safeStr kv.1 = true ∧ safeStr kv.2 = true := by
      have := (List.all_eq_true.mp hall) kv (by simp)
      simpa using this
    obtain ⟨f, rfl⟩ : ∃ f, fuel = f + 1 := ⟨fuel - 1, by simp at hfuel; omega⟩
    have hshape : renderFieldsL [kv] ++ '}' :: rest
        = '"' :: (kv.1.data ++ '"' :: ':' :: ' ' :: '"' :: (kv.2.data ++ '"' :: '}' :: rest)) := by
      simp [renderFieldsL, renderField]
    rw [hshape]
    unfold parseMembersAcc
    rw [skipWs_cons_not_ws '"' _ (by decide)]
    have hstr := parseStrBody_string kv.1
      (':' :: ' ' :: '"' :: (kv.2.data ++ '"' :: '}' :: rest)) hkv.1
    have hval : parseValue (f + 1) (' ' :: '"' :: (kv.2.data ++ '"' :: '}' :: rest))
        = some (Json.str kv.2, '}' :: rest) := by
      rw [parseValue_cons_ws f ' ' _ (by decide)]
      exact parseValue_str f kv.2 ('}' :: rest) hkv.2
    simp [hstr, hval, skipWs_cons_not_ws ':' _ (by decide),
      skipWs_cons_not_ws '}' _ (by decide)]
  | kv :: kv2 :: rest', fuel, acc, rest, _, hall, hfuel => by
    have hkv : safeStr kv.1 = true ∧ safeStr kv.2 = true := by
      have := (List.all_eq_true.mp hall) kv (by simp)
      simpa using this
    have hall' : (kv2 :: rest').all (fun kv => safeStr kv.1 && safeStr kv.2) = true :=
      List.all_eq_true.mpr
        (fun x hx => (List.all_eq_true.mp hall) x (List.mem_cons_of_mem _ hx))
    obtain ⟨f, rfl⟩ : ∃ f, fuel = f + 1 := ⟨fuel - 1, by simp at hfuel; omega⟩
    have hlen : (kv2 :: rest').length + 1 = (kv :: kv2 :: rest').length := by simp
    obtain ⟨g, hg⟩ : ∃ g, f = g + 1 := ⟨f - 1, by simp at hfuel; omega⟩
    have hshape : renderFieldsL (kv :: kv2 :: rest') ++ '}' :: rest
        = '"' :: (kv.1.data ++ '"' :: ':' :: ' ' :: '"' ::
            (kv.2.data ++ '"' :: ',' :: ' ' :: (renderFieldsL (kv2 :: rest') ++ '}' :: rest))) := by
      simp [renderFieldsL, renderField]
    rw [hshape]
    unfold parseMembersAcc
    rw [skipWs_cons_not_ws '"' _ (by decide)]
    have hstr := parseStrBody_string kv.1
      (':' :: ' ' :: '"' ::
        (kv.2.data ++ '"' :: ',' :: ' ' :: (renderFieldsL (kv2 :: rest') ++ '}' :: rest))) hkv.1
    have hval : parseValue (f + 1)
        (' ' :: '"' :: (kv.2.data ++ '"' :: ',' :: ' ' :: (renderFieldsL (kv2 :: rest') ++ '}' :: rest)))
        = some (Json.str kv.2, ',' :: ' ' :: (renderFieldsL (kv2 :: rest') ++ '}' :: rest)) := by
      rw [parseValue_cons_ws f ' ' _ (by decide)]
      exact parseValue_str f kv.2 _ hkv.2
    have hrec := parseMembersAcc_render (kv2 :: rest') (g + 1)
      (dictInsert kv.1 (Json.str kv.2) acc) rest (by simp) hall'
      (by simp at hfuel ⊢; omega)
    have hws : parseMembersAcc (f + 1) (dictInsert kv.1 (Json.str kv.2) acc)
        (' ' :: (renderFieldsL (kv2 :: rest') ++ '}' :: rest))
        = some ((kv2 :: rest').foldl (fun a kv => dictInsert kv.1 (Json.str kv.2) a)
            (dictInsert kv.1 (Json.str kv.2) acc), rest) := by
      rw [hg]
      unfold parseMembersAcc
      rw [skipWs_cons_ws ' ' _ (by decide)]
      unfold parseMembersAcc at hrec
      exact hrec
    simp [hstr, hval, skipWs_cons_not_ws ':' _ (by decide),
      skipWs_cons_not_ws ',' _ (by decide)]
    rw [hws]
    simp

end CCE

namespace CCE

/-- A flat record in the salvageable shape: at least one field, all
characters escape-free and brace-free, keys mutually distinct. -/
def recGoodB (r : FlatRec) : Bool :=
  !r.fields.isEmpty && recSafeB r && decide (r.fields.map Prod.fst).Nodup

theorem renderFieldsL_cons_head (kv : String × String) (rest' : List (String × String)) :
    ∃ t, renderFieldsL (kv :: rest') = '"' :: t := by
  cases rest' with
  | nil => exact ⟨_, rfl⟩
  | cons b l => exact ⟨_, rfl⟩

theorem parseValue_record (fields : List (String × String)) (fuel : Nat) (rest : List Char)
    (hne : fields ≠ [])
    (hsafe : fields.all (fun kv => safeStr kv.1 && safeStr kv.2) = true)
    (hnd : (fields.map Prod.fst).Nodup)
    (hfuel : 2 * fields.length ≤ fuel) :
    parseValue (fuel + 2) ('{' :: (renderFieldsL fields ++ '}' :: rest))
      = some (Json.obj (fields.map (fun kv => (kv.1, Json.str kv.2))), rest) := by
  obtain ⟨kv, rest', rfl⟩ : ∃ kv rest', fields = kv :: rest' := by
    cases fields with
    | nil => exact absurd rfl hne
    | cons a b => exact ⟨a, b, rfl⟩
  obtain ⟨t, ht⟩ := renderFieldsL_cons_head kv rest'
  have hmem := parseMembersAcc_render (kv :: rest') fuel [] rest (by simp) hsafe hfuel
  have hfold := foldl_dictInsert_nodup (kv :: rest') [] hnd (by simp)
  rw [hfold] at hmem
  rw [ht] at hmem ⊢
  show parseValue (fuel + 1 + 1) ('{' :: ('"' :: t ++ '}' :: rest)) = _
  unfold parseValue
  rw [skipWs_cons_not_ws '{' _ (by decide)]
  simp only [List.cons_append] at hmem ⊢
  simp [skipWs_cons_not_ws '"' _ (by decide), hmem]

theorem parseElements_cons_ws (g : Nat) (c : Char) (X : List Char) (h : jsonIsWs c = true) :
    parseElements (g + 1) (c :: X) = parseElements (g + 1) X := by
  cases g with
  | zero => rfl
  | succ g' =>
    unfold parseElements
    rw [parseValue_cons_ws g' c X h]

end CCE

namespace CCE

/-- Fuel needed by `parseElements` on a rendered record sequence. -/
def needElems : List FlatRec → Nat
  | [] => 0
  | r :: rs => 2 * r.fields.length + 2 + needElems rs

theorem renderField_length (kv : String × String) :
    kv.1.data.length + kv.2.data.length + 6 = (renderField kv).length := by
  simp [renderField]
  omega

theorem renderFieldsL_length :
    ∀ fields : List (String × String), 2 * fields.length ≤ (renderFieldsL fields).length
  | [] => by simp [renderFieldsL]
  | [kv] => by
    rw [show renderFieldsL [kv] = renderField kv from rfl, ← renderField_length kv]
    simp
  | kv :: kv2 :: rest => by
    have ih := renderFieldsL_length (kv2 :: rest)
    rw [show renderFieldsL (kv :: kv2 :: rest)
        = renderField kv ++ ',' :: ' ' :: renderFieldsL (kv2 :: rest) from rfl]
    have hf := renderField_length kv
    simp at ih ⊢
    omega

theorem renderRecL_append (r : FlatRec) (tail : List Char) :
    renderRecL r ++ tail = '{' :: (renderFieldsL r.fields ++ '}' :: tail) := by
  simp [renderRecL]

theorem joinSep_render_head (r : FlatRec) (rs' : List FlatRec) :
    ∃ t, joinSep ((r :: rs').map renderRecL) = '{' :: t := by
  cases rs' with
  | nil => exact ⟨_, rfl⟩
  | cons b l => exact ⟨_, rfl⟩

theorem needElems_le_joinSep :
    ∀ rs : List FlatRec, needElems rs ≤ (joinSep (rs.map renderRecL)).length
  | [] => by simp [needElems, joinSep]
  | [r] => by
    have hf := renderFieldsL_length r.fields
    simp [needElems, joinSep, renderRecL]
    omega
  | r :: r2 :: rest => by
    have ih := needElems_le_joinSep (r2 :: rest)
    have hf := renderFieldsL_length r.fields
    rw [show joinSep ((r :: r2 :: rest).map renderRecL)
        = renderRecL r ++ ',' :: ' ' :: joinSep ((r2 :: rest).map renderRecL) from rfl]
    simp [needElems, renderRecL] at ih ⊢
    omega

end CCE

namespace CCE

theorem recGoodB_spec (r : FlatRec) (h : recGoodB r = true) :
    r.fields ≠ [] ∧ r.fields.all (fun kv => safeStr kv.1 && safeStr kv.2) = true
      ∧ (r.fields.map Prod.fst).Nodup := by
  simp only [recGoodB, recSafeB, Bool.and_eq_true, Bool.not_eq_true',
    decide_eq_true_eq] at h
  refine ⟨fun hc => ?_, h.1.2, h.2⟩
  rw [hc] at h
  simp at h

theorem parseElements_records :
    ∀ (rs : List FlatRec) (fuel : Nat) (rest : List Char),
      rs ≠ [] →
      rs.all recGoodB = true →
      needElems rs ≤ fuel →
      parseElements (fuel + 1) (joinSep (rs.map renderRecL) ++ ']' :: rest)
        = some (rs.map recToJson, rest)
  | [], _, _, hne, _, _ => absurd rfl hne
  | [r], fuel, rest, _, hgood, hfuel => by
    obtain ⟨hne', hsafe, hnd⟩ := recGoodB_spec r ((List.all_eq_true.mp hgood) r (by simp))
    obtain ⟨f0, rfl⟩ : ∃ f0, fuel = f0 + 2 :=
      ⟨fuel - 2, by simp [needElems] at hfuel; omega⟩
    have hval := parseValue_record r.fields f0 (']' :: rest) hne' hsafe hnd
      (by simp [needElems] at hfuel; omega)
    rw [show joinSep ([r].map renderRecL) = renderRecL r from rfl, renderRecL_append]
    unfold parseElements
    rw [hval]
    simp [skipWs_cons_not_ws ']' _ (by decide), recToJson]
  | r :: r2 :: rest', fuel, rest, _, hgood, hfuel => by
    obtain ⟨hne', hsafe, hnd⟩ := recGoodB_spec r ((List.all_eq_true.mp hgood) r (by simp))
    have hgood' : (r2 :: rest').all recGoodB = true :=
      List.all_eq_true.mpr
        (fun x hx => (List.all_eq_true.mp hgood) x (List.mem_cons_of_mem _ hx))
    obtain ⟨f0, rfl⟩ : ∃ f0, fuel = f0 + 2 :=
      ⟨fuel - 2, by simp [needElems] at hfuel; omega⟩
    have hrec := parseElements_records (r2 :: rest') (f0 + 1) rest (by simp) hgood'
      (by simp [needElems] at hfuel ⊢; omega)
    rw [show joinSep ((r :: r2 :: rest').map renderRecL)
        = renderRecL r ++ ',' :: ' ' :: joinSep ((r2 :: rest').map renderRecL) from rfl]
    rw [List.append_assoc, List.cons_append, List.cons_append, renderRecL_append]
    have hval := parseValue_record r.fields f0
      (',' :: ' ' :: (joinSep ((r2 :: rest').map renderRecL) ++ ']' :: rest)) hne' hsafe hnd
      (by simp [needElems] at hfuel; omega)
    have hws : parseElements (f0 + 2)
        (' ' :: (joinSep ((r2 :: rest').map renderRecL) ++ ']' :: rest))
        = some ((r2 :: rest').map recToJson, rest) := by
      have hcw := parseElements_cons_ws (f0 + 1) ' '
        (joinSep ((r2 :: rest').map renderRecL) ++ ']' :: rest) (by decide)
      rw [show f0 + 1 + 1 = f0 + 2 from rfl] at hcw
      rw [hcw]
      exact hrec
    unfold parseElements
    rw [hval]
    simp [skipWs_cons_not_ws ',' _ (by decide)]
    rw [show (renderRecL r2 :: List.map renderRecL rest' : List (List Char))
        = List.map renderRecL (r2 :: rest') from rfl, hws]
    simp [recToJson]

end CCE

namespace CCE

theorem jsonLoadsL_record (r : FlatRec) (hgood : recGoodB r = true) :
    jsonLoadsL (renderRecL r) = some (recToJson r) := by
  obtain ⟨hne', hsafe, hnd⟩ := recGoodB_spec r hgood
  have hlen := renderFieldsL_length r.fields
  have hval := parseValue_record r.fields ((renderFieldsL r.fields).length + 1) []
    hne' hsafe hnd (by omega)
  have hfix : (renderRecL r).length + 1 = (renderFieldsL r.fields).length + 1 + 2 := by
    simp [renderRecL]
  have hshape : renderRecL r = '{' :: (renderFieldsL r.fields ++ '}' :: []) := rfl
  unfold jsonLoadsL
  rw [hfix, hshape, hval]
  simp [recToJson, skipWs]

theorem jsonLoadsL_array (rs : List FlatRec)
    (hne : rs ≠ []) (hgood : rs.all recGoodB = true) :
    jsonLoadsL ('[' :: joinSep (rs.map renderRecL) ++ [']'])
      = some (Json.arr (rs.map recToJson)) := by
  obtain ⟨r, rs', rfl⟩ : ∃ r rs', rs = r :: rs' := by
    cases rs with
    | nil => exact absurd rfl hne
    | cons a b => exact ⟨a, b, rfl⟩
  obtain ⟨t, ht⟩ := joinSep_render_head r rs'
  have hlenJ := needElems_le_joinSep (r :: rs')
  have hel2 : parseElements ((joinSep ((r :: rs').map renderRecL)).length + 2)
      (joinSep ((r :: rs').map renderRecL) ++ ']' :: []) = some ((r :: rs').map recToJson, []) := by
    have h0 := parseElements_records (r :: rs')
      ((joinSep ((r :: rs').map renderRecL)).length + 1) [] (by simp) hgood
      (le_trans hlenJ (by omega))
    rw [show (joinSep ((r :: rs').map renderRecL)).length + 1 + 1
        = (joinSep ((r :: rs').map renderRecL)).length + 2 from rfl] at h0
    exact h0
  have harr : parseValue ((joinSep ((r :: rs').map renderRecL)).length + 2 + 1)
      ('[' :: (joinSep ((r :: rs').map renderRecL) ++ [']']))
      = some (Json.arr ((r :: rs').map recToJson), []) := by
    rw [show joinSep ((r :: rs').map renderRecL) ++ ']' :: []
        = '{' :: (t ++ [']']) from by rw [ht, List.cons_append]] at hel2
    unfold parseValue
    rw [skipWs_cons_not_ws '[' _ (by decide)]
    rw [show joinSep ((r :: rs').map renderRecL) ++ [']']
        = '{' :: (t ++ [']']) from by rw [ht, List.cons_append]]
    simp [skipWs_cons_not_ws '{' _ (by decide)]
    rw [show (renderRecL r :: List.map renderRecL rs' : List (List Char))
        = List.map renderRecL (r :: rs') from rfl, hel2]
    simp
  unfold jsonLoadsL
  rw [show ('[' :: joinSep ((r :: rs').map renderRecL) ++ [']']).length + 1
      = (joinSep ((r :: rs').map renderRecL)).length + 2 + 1 from by simp]
  rw [show ('[' :: joinSep ((r :: rs').map renderRecL) ++ [']'] : List Char)
      = '[' :: (joinSep ((r :: rs').map renderRecL) ++ [']']) from rfl]
  rw [harr]
  simp [skipWs]

end CCE

namespace CCE

theorem dictHasKey_map (k : String) :
    ∀ fields : List (String × String),
      dictHasKey k (fields.map (fun kv => (kv.1, Json.str kv.2)))
        = fields.any (fun kv => kv.1 = k)
  | [] => rfl
  | kv :: rest => by
    simp [dictHasKey, dictHasKey_map k rest, List.any_cons]

theorem any_title_or_id (fields : List (String × String)) :
    (fields.any (fun kv => kv.1 = "title") || fields.any (fun kv => kv.1 = "id"))
      = fields.any (fun kv => kv.1 = "title" || kv.1 = "id") := by
  rw [Bool.eq_iff_iff]
  simp only [Bool.or_eq_true, List.any_eq_true, decide_eq_true_eq]
  constructor
  · rintro (⟨kv, hm, hk⟩ | ⟨kv, hm, hk⟩)
    · exact ⟨kv, hm, Or.inl hk⟩
    · exact ⟨kv, hm, Or.inr hk⟩
  · rintro ⟨kv, hm, hk | hk⟩
    · exact Or.inl ⟨kv, hm, hk⟩
    · exact Or.inr ⟨kv, hm, hk⟩

theorem keepIdea_render (r : FlatRec) (hgood : recGoodB r = true) :
    keepIdea (renderRecL r) = if recTitledB r then [recToJson r] else [] := by
  have hkey : (dictHasKey "title" (r.fields.map (fun kv => (kv.1, Json.str kv.2)))
      || dictHasKey "id" (r.fields.map (fun kv => (kv.1, Json.str kv.2)))) = recTitledB r := by
    rw [dictHasKey_map, dictHasKey_map]
    exact any_title_or_id r.fields
  unfold keepIdea
  rw [jsonLoadsL_record r hgood,
    show recToJson r = Json.obj (r.fields.map (fun kv => (kv.1, Json.str kv.2))) from rfl]
  simp only [hkey]

theorem noBrace_of_safe (cs : List Char) (h : cs.all safeChar = true) : noBrace cs = true := by
  unfold noBrace
  refine List.all_eq_true.mpr (fun c hc => ?_)
  obtain ⟨_, _, _, h4, h5⟩ := safeChar_spec c ((List.all_eq_true.mp h) c hc)
  exact decide_eq_true ⟨h4, h5⟩

theorem noBrace_append (xs ys : List Char) :
    noBrace (xs ++ ys) = (noBrace xs && noBrace ys) := by
  simp [noBrace]

theorem noBrace_renderField (kv : String × String)
    (h : safeStr kv.1 = true ∧ safeStr kv.2 = true) :
    noBrace (renderField kv) = true := by
  have h1 := noBrace_of_safe kv.1.data h.1
  have h2 := noBrace_of_safe kv.2.data h.2
  simp [noBrace] at h1 h2
  simp [renderField, noBrace]
  exact ⟨h1, h2⟩

theorem noBrace_renderFieldsL :
    ∀ fields : List (String × String),
      fields.all (fun kv => safeStr kv.1 && safeStr kv.2) = true →
      noBrace (renderFieldsL fields) = true
  | [] => fun _ => rfl
  | [kv] => fun h => by
    have hkv : safeStr kv.1 = true ∧ safeStr kv.2 = true := by
      have := (List.all_eq_true.mp h) kv (by simp)
      simpa using this
    exact noBrace_renderField kv hkv
  | kv :: kv2 :: rest => fun h => by
    have hkv : safeStr kv.1 = true ∧ safeStr kv.2 = true := by
      have := (List.all_eq_true.mp h) kv (by simp)
      simpa using this
    have ih := noBrace_renderFieldsL (kv2 :: rest)
      (List.all_eq_true.mpr
        (fun x hx => (List.all_eq_true.mp h) x (List.mem_cons_of_mem _ hx)))
    have hn := noBrace_renderField kv hkv
    rw [show renderFieldsL (kv :: kv2 :: rest)
        = renderField kv ++ ',' :: ' ' :: renderFieldsL (kv2 :: rest) from rfl, noBrace_append]
    simp [hn]
    simpa [noBrace] using ih

end CCE

namespace CCE

theorem scanRun_flat_records :
    ∀ (rs : List FlatRec), rs.all recGoodB = true →
      ∀ acc : List Json, scanRun (joinSep (rs.map renderRecL)) ⟨0, none, acc⟩
        = ⟨0, none, acc ++ (rs.filter recTitledB).map recToJson⟩
  | [], _, acc => by simp [joinSep, scanRun]
  | [r], h, acc => by
    have hg : recGoodB r = true := (List.all_eq_true.mp h) r (by simp)
    obtain ⟨hne', hsafe, _⟩ := recGoodB_spec r hg
    have hnb := noBrace_renderFieldsL r.fields hsafe
    have hobj := scanRun_object (renderFieldsL r.fields) hnb acc
    have hk : keepIdea ('{' :: renderFieldsL r.fields ++ ['}'])
        = if recTitledB r then [recToJson r] else [] := keepIdea_render r hg
    rw [show joinSep ([r].map renderRecL) = renderRecL r from rfl,
      show renderRecL r = '{' :: renderFieldsL r.fields ++ ['}'] from rfl,
      hobj, hk]
    cases ht : recTitledB r <;> simp [List.filter_cons, ht]
  | r :: r2 :: rest, h, acc => by
    have hg : recGoodB r = true := (List.all_eq_true.mp h) r (by simp)
    obtain ⟨hne', hsafe, _⟩ := recGoodB_spec r hg
    have hnb := noBrace_renderFieldsL r.fields hsafe
    have ih := scanRun_flat_records (r2 :: rest)
      (List.all_eq_true.mpr
        (fun x hx => (List.all_eq_true.mp h) x (List.mem_cons_of_mem _ hx)))
    have hk : keepIdea ('{' :: renderFieldsL r.fields ++ ['}'])
        = if recTitledB r then [recToJson r] else [] := keepIdea_render r hg
    rw [show joinSep ((r :: r2 :: rest).map renderRecL)
        = renderRecL r ++ ',' :: ' ' :: joinSep ((r2 :: rest).map renderRecL) from rfl,
      scanRun_append,
      show renderRecL r = '{' :: renderFieldsL r.fields ++ ['}'] from rfl,
      scanRun_object (renderFieldsL r.fields) hnb acc]
    have e1 : scanRun (',' :: ' ' :: joinSep ((r2 :: rest).map renderRecL))
        ⟨0, none, acc ++ keepIdea ('{' :: renderFieldsL r.fields ++ ['}'])⟩
        = scanRun (joinSep ((r2 :: rest).map renderRecL))
            (scanStep (scanStep ⟨0, none,
              acc ++ keepIdea ('{' :: renderFieldsL r.fields ++ ['}'])⟩ ',') ' ') := rfl
    rw [e1, scanStep_idle ',' _ (by decide) (by decide),
      scanStep_idle ' ' _ (by decide) (by decide), ih, hk]
    cases ht : recTitledB r <;> simp [List.filter_cons, ht]

end CCE

namespace CCE

/--
C3, counterexample. The spec says truncated-output recovery returns exactly
the well-formed leading records of an array text cut off mid-object. In the
code, `_recover_truncated_json` additionally requires each salvaged record to
hold a `title` or `id` key: on the truncated text
`[\x7b"a": "b"\x7d, \x7b"title": "H` the leading record `\x7b"a": "b"\x7d` is
well-formed JSON (first conjunct) yet recovery returns the empty list rather
than that record (second conjunct).
-/
theorem claim_C3_counterexample :
    jsonLoads "\x7b\"a\": \"b\"\x7d" = some (Json.obj [("a", Json.str "b")])
    ∧ recover_truncated_json "[\x7b\"a\": \"b\"\x7d, \x7b\"title\": \"H" = [] := by
  constructor <;> rfl

/--
C3, amended. On an array text consisting of well-formed flat records followed
by one incomplete trailing object, `_recover_truncated_json` returns exactly
the well-formed leading records THAT HOLD A `title` OR `id` KEY, in order,
and excludes the partial trailing one; leading records without such a key are
dropped as well.
-/
theorem claim_C3_recovery_titled_only (rs : List FlatRec) (pb : List Char)
    (hne : rs ≠ []) (hgood : rs.all recGoodB = true) (hpb : noBrace pb = true) :
    recover_truncated_json
        (String.mk ('[' :: (joinSep (rs.map renderRecL) ++ ',' :: ' ' :: '{' :: pb)))
      = (rs.filter recTitledB).map recToJson := by
  rw [recover_eq_scanRun]
  rw [show (String.mk ('[' :: (joinSep (rs.map renderRecL) ++ ',' :: ' ' :: '{' :: pb))).data
      = '[' :: (joinSep (rs.map renderRecL) ++ ',' :: ' ' :: '{' :: pb) from rfl]
  have e0 : scanRun ('[' :: (joinSep (rs.map renderRecL) ++ ',' :: ' ' :: '{' :: pb))
        ⟨0, none, []⟩
      = scanRun (joinSep (rs.map renderRecL) ++ ',' :: ' ' :: '{' :: pb)
          (scanStep ⟨0, none, []⟩ '[') := rfl
  rw [e0, scanStep_idle '[' _ (by decide) (by decide), scanRun_append,
    scanRun_flat_records rs hgood []]
  have e1 : scanRun (',' :: ' ' :: '{' :: pb)
        (⟨0, none, [] ++ (rs.filter recTitledB).map recToJson⟩ : ScanSt)
      = scanRun ('{' :: pb)
          (scanStep (scanStep ⟨0, none, [] ++ (rs.filter recTitledB).map recToJson⟩ ',') ' ') :=
    rfl
  rw [e1, scanStep_idle ',' _ (by decide) (by decide),
    scanStep_idle ' ' _ (by decide) (by decide),
    scanRun_truncated pb hpb ([] ++ (rs.filter recTitledB).map recToJson)]
  simp

/-- C3, witness: a one-record truncated text whose leading record carries a
`title` key is salvaged as exactly that record. -/
theorem claim_C3_witness :
    ([FlatRec.mk [("title", "A")]].all recGoodB = true)
    ∧ recover_truncated_json
        (String.mk ('[' :: (joinSep ([FlatRec.mk [("title", "A")]].map renderRecL)
          ++ ',' :: ' ' :: '{' :: "\"title\": \"B".data)))
      = ([FlatRec.mk [("title", "A")]].filter recTitledB).map recToJson :=
  ⟨by decide,
   claim_C3_recovery_titled_only [FlatRec.mk [("title", "A")]] "\"title\": \"B".data
     (by simp) (by decide) (by decide)⟩

end CCE

namespace CCE

/--
C6, counterexample. The spec says feeding a valid (non-truncated) array into
truncated-output recovery yields the same records as direct parsing. The
valid array text `[\x7b"a": "b"\x7d]` parses directly to a one-record list
(first conjunct), but `_recover_truncated_json` keeps only records holding a
`title` or `id` key and so returns the empty list on the same text (second
conjunct).
-/
theorem claim_C6_counterexample :
    jsonLoads "[\x7b\"a\": \"b\"\x7d]" = some (Json.arr [Json.obj [("a", Json.str "b")]])
    ∧ recover_truncated_json "[\x7b\"a\": \"b\"\x7d]" = [] := by
  constructor <;> rfl

/--
C6, amended. On a valid (non-truncated) array of flat records EVERY ONE OF
WHICH HOLDS A `title` OR `id` KEY, recovery agrees with direct parsing: the
text `json.loads` to exactly the rendered records (first conjunct) and
`_recover_truncated_json` returns the same record list (second conjunct).
Without the title/id restriction the agreement fails (see the counterexample).
-/
theorem claim_C6_recovery_valid_agree (rs : List FlatRec)
    (hne : rs ≠ []) (hgood : rs.all recGoodB = true) (htitled : rs.all recTitledB = true) :
    jsonLoads (String.mk ('[' :: joinSep (rs.map renderRecL) ++ [']']))
        = some (Json.arr (rs.map recToJson))
    ∧ recover_truncated_json (String.mk ('[' :: joinSep (rs.map renderRecL) ++ [']']))
        = rs.map recToJson := by
  constructor
  · exact jsonLoadsL_array rs hne hgood
  · rw [recover_eq_scanRun]
    rw [show (String.mk ('[' :: joinSep (rs.map renderRecL) ++ [']'])).data
        = '[' :: (joinSep (rs.map renderRecL) ++ [']']) from rfl]
    have e0 : scanRun ('[' :: (joinSep (rs.map renderRecL) ++ [']'])) ⟨0, none, []⟩
        = scanRun (joinSep (rs.map renderRecL) ++ [']']) (scanStep ⟨0, none, []⟩ '[') := rfl
    rw [e0, scanStep_idle '[' _ (by decide) (by decide), scanRun_append,
      scanRun_flat_records rs hgood []]
    have e1 : scanRun [']'] (⟨0, none, [] ++ (rs.filter recTitledB).map recToJson⟩ : ScanSt)
        = scanStep ⟨0, none, [] ++ (rs.filter recTitledB).map recToJson⟩ ']' := rfl
    rw [e1, scanStep_idle ']' _ (by decide) (by decide)]
    have hfilt : rs.filter recTitledB = rs :=
      List.filter_eq_self.mpr (fun a ha => (List.all_eq_true.mp htitled) a ha)
    simp [hfilt]

/-- C6, witness: a valid one-record array whose record carries an `id` key is
parsed and recovered to the same one-record list. -/
theorem claim_C6_witness :
    ([FlatRec.mk [("id", "7")]].all recGoodB = true)
    ∧ (jsonLoads (String.mk ('[' :: joinSep ([FlatRec.mk [("id", "7")]].map renderRecL)
          ++ [']']))
        = some (Json.arr ([FlatRec.mk [("id", "7")]].map recToJson))
      ∧ recover_truncated_json
          (String.mk ('[' :: joinSep ([FlatRec.mk [("id", "7")]].map renderRecL) ++ [']']))
        = [FlatRec.mk [("id", "7")]].map recToJson) :=
  ⟨by decide,
   claim_C6_recovery_valid_agree [FlatRec.mk [("id", "7")]] (by simp) (by decide) (by decide)⟩

end CCE
